import Mathlib

/-!
# openlearn-monitoring: status aggregation and poll persistence

A shallow embedding of `internal/status/service.go`, `internal/storage/dynamodb.go`,
`internal/monitoring/service.go`, `internal/handler/handler.go` and
`internal/models/models.go`.

Modelling conventions.

* An instant is an `Int` count of nanoseconds since the Unix epoch.  A `time.Time`
  is the instant together with the UTC offset (in seconds) that its location has
  at that instant: `Before`, `After` and `Format` read nothing else.
* `time.Now()` is a `LocalTime`: an instant together with the zone table of the
  process's local zone, which `AddDate` consults.
* The civil date of a time is represented by its day ordinal (whole days since
  1970-01-01 on the wall clock of the zone).  `Format("2006-01-02")` renders the
  ordinal injectively, so equality of day keys is equality of ordinals, and
  `AddDate(0, 0, k)` moves the wall clock by `k` times 86400 seconds before it
  is resolved against the zone table.
* A string handed to `time.Parse` is represented by what the parser makes of it
  (`TimeStr`).
* `float64` arithmetic is taken as exact arithmetic on `ℚ`.
* `sort.Slice`, the iteration order of a Go map, the order in which goroutines
  run, the outcome of each `PutItem` call and the outcome of the HTTP request
  of the probe belong to the runtime and are parameters of the model.
-/

namespace OpenLearn

/-! ## Time -/

/-- Nanoseconds in one second -/
def nanosPerSecond : Int := 1000000000

/-- Seconds in one civil day -/
def secondsPerDay : Int := 86400

/-- The Go constant `time.Hour`, a duration in nanoseconds -/
def Hour : Int := 3600 * nanosPerSecond

/-- A Go `time.Time`: the instant, and the UTC offset in seconds east of
Greenwich that the location of the value has at that instant -/
structure Time where
  unixNano : Int
  offset : Int
deriving DecidableEq, Repr

/-- The zero value `time.Time{}`, 0001-01-01T00:00:00Z -/
def Time.zero : Time := ⟨-62135596800 * nanosPerSecond, 0⟩

instance : Inhabited Time := ⟨Time.zero⟩

/-- Go `t.Before(u)` -/
def Time.Before (t u : Time) : Bool := decide (t.unixNano < u.unixNano)

/-- Go `t.After(u)` -/
def Time.After (t u : Time) : Bool := decide (u.unixNano < t.unixNano)

/-- Go `t.Add(d)` for a duration `d` in nanoseconds, as far as comparisons see it -/
def Time.Add (t : Time) (d : Int) : Time := ⟨t.unixNano + d, t.offset⟩

/-- Whole seconds since the epoch of an instant (floor) -/
def unixSeconds (n : Int) : Int := n / nanosPerSecond

/-- The day key `t.Format("2006-01-02")`, as the civil day ordinal in the
zone of `t` -/
def Time.dayKey (t : Time) : Int := (unixSeconds t.unixNano + t.offset) / secondsPerDay

/-- A string as `time.Parse` with the RFC3339 layout sees it: one it rejects
(the empty string among them), or one it accepts, denoting an instant and a
zone offset in whole minutes -/
inductive TimeStr where
  | invalid
  | rfc3339 (unixNano : Int) (zoneMinutes : Int)
deriving DecidableEq, Repr

instance : Inhabited TimeStr := ⟨TimeStr.invalid⟩

/-- Go `time.Parse("2006-01-02T15:04:05Z07:00", s)`; `none` is the error
return.  A fractional second in the input is accepted and kept. -/
def timeParse : TimeStr → Option Time
  | .invalid => none
  | .rfc3339 n z => some ⟨n, z * 60⟩

/-- Go `t.Format("2006-01-02T15:04:05Z07:00")`: the layout has no fractional
second, and the zone is printed in whole minutes -/
def Time.Format (t : Time) : TimeStr :=
  .rfc3339 (unixSeconds t.unixNano * nanosPerSecond) (Int.tdiv t.offset 60)

/-- The idiom `ts, _ := time.Parse(layout, s)`: on error the zero time -/
def parseOrZero (s : TimeStr) : Time := (timeParse s).getD Time.zero

/-- One period of a zone table: the offset in force from `start` up to `stop` -/
structure ZoneSpan where
  offset : Int
  start : Int
  stop : Int
deriving DecidableEq, Repr

/-- A Go `*time.Location`: the offset of the first zone and the transitions
`(when, offset)` in ascending order of `when` (Unix seconds) -/
structure Location where
  initial : Int
  tx : List (Int × Int)
deriving DecidableEq, Repr

/-- The Go constant `alpha`, the beginning of time of a zone table -/
def alpha : Int := -(2 ^ 63)

/-- The Go constant `omega`, the end of time of a zone table -/
def omega : Int := 2 ^ 63 - 1

/-- Walks the transitions: the span that holds `sec` -/
def lookupFrom (sec : Int) : Int → Int → List (Int × Int) → ZoneSpan
  | off, start, [] => ⟨off, start, omega⟩
  | off, start, (w, o) :: rest =>
    if sec < w then ⟨off, start, w⟩ else lookupFrom sec o w rest

/-- Go `l.lookup(sec)`: offset, start and end of the zone in use at `sec` -/
def Location.lookup (l : Location) (sec : Int) : ZoneSpan :=
  lookupFrom sec l.initial alpha l.tx

/-- The location `time.UTC` -/
def UTC : Location := ⟨0, []⟩

/-- Go `time.FixedZone(name, offset)` -/
def FixedZone (offset : Int) : Location := ⟨offset, []⟩

/-- A `time.Time` in the process's local zone, such as `time.Now()` returns -/
structure LocalTime where
  unixNano : Int
  loc : Location
deriving DecidableEq, Repr

/-- The value as a `Time`: the offset is the one in force at the instant -/
def LocalTime.toTime (t : LocalTime) : Time :=
  ⟨t.unixNano, (t.loc.lookup (unixSeconds t.unixNano)).offset⟩

/-- Go `time.Date(..., loc)` from the wall-clock second count `wall` (civil
date and clock read as if in UTC) and the nanosecond part: the zone offset is
looked up at the wall value first and corrected when that lands outside the
zone found -/
def Date (wall : Int) (nsec : Int) (l : Location) : LocalTime :=
  let z := l.lookup wall
  let unix :=
    if z.offset ≠ 0 then
      let utc := wall - z.offset
      let offset := if utc < z.start ∨ utc ≥ z.stop then (l.lookup utc).offset else z.offset
      wall - offset
    else wall
  ⟨unix * nanosPerSecond + nsec, l⟩

/-- Go `t.AddDate(0, 0, days)`: same clock reading `days` civil days away -/
def LocalTime.AddDate (t : LocalTime) (days : Int) : LocalTime :=
  let sec := unixSeconds t.unixNano
  let wall := sec + (t.loc.lookup sec).offset
  Date (wall + days * secondsPerDay) (t.unixNano % nanosPerSecond) t.loc

/-! ## Data model (`internal/models`, `internal/status`) -/

/-- The Go type `models.DynamoDBItem` -/
structure DynamoDBItem where
  ServiceName : String
  Status : String
  InternalResponseTimeMs : ℚ
  TotalResponseTimeMs : Int
  LastChecked : TimeStr
deriving DecidableEq, Repr

/-- The Go type `status.UptimeStats` -/
structure UptimeStats where
  Last24Hours : ℚ
  Last7Days : ℚ
  Last30Days : ℚ
deriving DecidableEq, Repr

/-- The Go type `status.StatusPoint` -/
structure StatusPoint where
  Timestamp : Time
  Status : String
deriving DecidableEq, Repr

/-- The Go type `status.ComponentStatus` -/
structure ComponentStatus where
  Name : String
  Status : String
  InternalResponseTimeMs : ℚ
  TotalResponseTimeMs : Int
  LastChecked : Time
  UptimePercent : ℚ
  StatusHistory : List StatusPoint
deriving DecidableEq, Repr

/-- The Go type `status.SystemStatus` -/
structure SystemStatus where
  OverallStatus : String
  Components : List ComponentStatus
  LastUpdated : Time
  UptimeStats : UptimeStats
deriving DecidableEq, Repr

/-! ## `calculateUptime` -/

/-- One pass of the inner loop of `calculateUptime`; the accumulator is
`(total, operational)` -/
def uptimeStep (cutoff : Time) (acc : Nat × Nat) (item : DynamoDBItem) : Nat × Nat :=
  match timeParse item.LastChecked with
  | none => acc
  | some timestamp =>
    if timestamp.Before cutoff then acc
    else (acc.1 + 1, if item.Status = "OPERATIONAL" then acc.2 + 1 else acc.2)

/-- The body of the loop over `periods` in `calculateUptime` for one period -/
def periodUptime (now : Time) (duration : Int) (items : List DynamoDBItem) : ℚ :=
  let cutoff := now.Add (-duration)
  let counts := items.foldl (uptimeStep cutoff) (0, 0)
  if counts.1 > 0 then (counts.2 : ℚ) / (counts.1 : ℚ) * 100 else 100

/-- Go `calculateUptime`, with the reading of `time.Now()` passed in -/
def calculateUptime (now : Time) (items : List DynamoDBItem) : UptimeStats :=
  { Last24Hours := periodUptime now (24 * Hour) items
    Last7Days := periodUptime now (7 * 24 * Hour) items
    Last30Days := periodUptime now (30 * 24 * Hour) items }

/-! ## Go maps kept as association lists -/

/-- Go `m[k] = append(m[k], item)`; a new key goes to the end -/
def mapAppend {κ : Type} [DecidableEq κ] :
    List (κ × List DynamoDBItem) → κ → DynamoDBItem → List (κ × List DynamoDBItem)
  | [], k, item => [(k, [item])]
  | (k0, v) :: rest, k, item =>
    if k0 = k then (k0, v ++ [item]) :: rest else (k0, v) :: mapAppend rest k item

/-- Go `v, exists := m[k]` -/
def mapLookup {κ : Type} [DecidableEq κ] :
    List (κ × List DynamoDBItem) → κ → Option (List DynamoDBItem)
  | [], _ => none
  | (k0, v) :: rest, k => if k0 = k then some v else mapLookup rest k

/-! ## `generateStatusHistory` -/

/-- One pass of the first loop of `generateStatusHistory`, which fills `dayMap` -/
def historyStep (cutoff : Time) (dayMap : List (Int × List DynamoDBItem))
    (item : DynamoDBItem) : List (Int × List DynamoDBItem) :=
  match timeParse item.LastChecked with
  | none => dayMap
  | some timestamp =>
    if timestamp.Before cutoff then dayMap
    else mapAppend dayMap timestamp.dayKey item

/-- The loop with `break` over the items of one day: the first status that is
not `OPERATIONAL`, the default otherwise -/
def worstStatus : List DynamoDBItem → String
  | [] => "OPERATIONAL"
  | item :: rest => if item.Status ≠ "OPERATIONAL" then item.Status else worstStatus rest

/-- The point built by pass `d` of the second loop of `generateStatusHistory` -/
def historyPoint (now : LocalTime) (dayMap : List (Int × List DynamoDBItem)) (d : Nat) :
    StatusPoint :=
  let day := (now.AddDate (-(d : Int))).toTime
  let dayKey := day.dayKey
  let status :=
    match mapLookup dayMap dayKey with
    | some dayItems => if dayItems.length > 0 then worstStatus dayItems else "OPERATIONAL"
    | none => "OPERATIONAL"
  { Timestamp := day, Status := status }

/-- Go `generateStatusHistory`, with the reading of `time.Now()` passed in;
each pass of the second loop puts its point in front of the earlier ones -/
def generateStatusHistory (now : LocalTime) (items : List DynamoDBItem) (days : Int) :
    List StatusPoint :=
  let cutoff := (now.AddDate (-days)).toTime
  let dayMap := items.foldl (historyStep cutoff) []
  (List.range days.toNat).foldl (fun points d => historyPoint now dayMap d :: points) []

/-! ## `calculateOverallUptime` -/

/-- Go `calculateOverallUptime` -/
def calculateOverallUptime (components : List ComponentStatus) : UptimeStats :=
  if components.length = 0 then
    { Last24Hours := 100, Last7Days := 100, Last30Days := 100 }
  else
    let totals := components.foldl
      (fun (t : ℚ × ℚ × ℚ) component =>
        (t.1 + component.UptimePercent, t.2.1 + component.UptimePercent,
          t.2.2 + component.UptimePercent))
      (0, 0, 0)
    let count : ℚ := components.length
    { Last24Hours := totals.1 / count
      Last7Days := totals.2.1 / count
      Last30Days := totals.2.2 / count }

/-! ## `GetCurrentStatus` -/

/-- One element of `result.Items`, a `map[string]types.AttributeValue`, as the
type assertions and `Sscanf` calls of `GetCurrentStatus` read it: a field is
`none` when the attribute is absent, has another type, or (for the numbers)
nothing could be scanned -/
structure Item where
  serviceName : Option String
  status : Option String
  internalResponseTimeMs : Option ℚ
  totalResponseTimeMs : Option Int
  lastChecked : Option TimeStr
deriving DecidableEq, Repr

/-- The body of the first loop of `GetCurrentStatus`: the `dbItem` decoded from
one scanned item; a field not read keeps its zero value -/
def decodeItem (item : Item) : DynamoDBItem :=
  { ServiceName := item.serviceName.getD ""
    Status := item.status.getD ""
    InternalResponseTimeMs := item.internalResponseTimeMs.getD 0
    TotalResponseTimeMs := item.totalResponseTimeMs.getD 0
    LastChecked :=
      match item.lastChecked with
      | some value =>
        (match timeParse value with
          | some timestamp => timestamp.Format
          | none => TimeStr.invalid)
      | none => TimeStr.invalid }

/-- The first loop of `GetCurrentStatus`: `componentMap` -/
def buildComponentMap (items : List Item) : List (String × List DynamoDBItem) :=
  items.foldl
    (fun componentMap item =>
      let dbItem := decodeItem item
      mapAppend componentMap dbItem.ServiceName dbItem)
    []

/-- The comparison passed to `sort.Slice` in `GetCurrentStatus` -/
def latestFirst (a b : DynamoDBItem) : Bool :=
  (parseOrZero a.LastChecked).After (parseOrZero b.LastChecked)

/-- What the read path takes from the Go runtime: the library sort, the order
in which `range` visits a map, and the successive readings of `time.Now()` -/
structure Runtime where
  sortSlice : (DynamoDBItem → DynamoDBItem → Bool) → List DynamoDBItem → List DynamoDBItem
  mapRange : List (String × List DynamoDBItem) → List (String × List DynamoDBItem)
  now : Nat → LocalTime

/-- The variables of the second loop of `GetCurrentStatus`, with the count of
`time.Now()` readings taken so far -/
structure ReadState where
  components : List ComponentStatus
  overallOperational : Bool
  lastUpdated : Time
  clock : Nat
deriving DecidableEq, Repr

/-- The body of the second loop of `GetCurrentStatus` -/
def processGroup (rt : Runtime) (st : ReadState) (entry : String × List DynamoDBItem) :
    ReadState :=
  let items := rt.sortSlice latestFirst entry.2
  match items with
  | [] => st
  | latest :: _ =>
    let lastChecked := parseOrZero latest.LastChecked
    let lastUpdated := if lastChecked.After st.lastUpdated then lastChecked else st.lastUpdated
    let uptimeStats := calculateUptime (rt.now st.clock).toTime items
    let statusHistory := generateStatusHistory (rt.now (st.clock + 1)) items 90
    let component : ComponentStatus :=
      { Name := entry.1
        Status := latest.Status
        InternalResponseTimeMs := latest.InternalResponseTimeMs
        TotalResponseTimeMs := latest.TotalResponseTimeMs
        LastChecked := lastChecked
        UptimePercent := uptimeStats.Last24Hours
        StatusHistory := statusHistory }
    { components := st.components ++ [component]
      overallOperational := if latest.Status ≠ "OPERATIONAL" then false else st.overallOperational
      lastUpdated := lastUpdated
      clock := st.clock + 2 }

/-- Go `GetCurrentStatus` after a successful `Scan`; `items` is `result.Items` -/
def GetCurrentStatus (rt : Runtime) (items : List Item) : SystemStatus :=
  let componentMap := buildComponentMap items
  let st := (rt.mapRange componentMap).foldl (processGroup rt) ⟨[], true, Time.zero, 0⟩
  { OverallStatus := if st.overallOperational then "OPERATIONAL" else "DEGRADED"
    Components := st.components
    LastUpdated := st.lastUpdated
    UptimeStats := calculateOverallUptime st.components }

/-! ## Storage (`internal/storage`) -/

/-- The Go type `models.Component` -/
structure Component where
  Name : String
  Status : String
  ResponseTimeMs : ℚ
deriving DecidableEq, Repr

/-- The Go type `models.MonitoringResult` -/
structure MonitoringResult where
  Components : List Component
  TotalResponseTimeMs : Int
  Timestamp : Time
deriving DecidableEq, Repr

/-- The number printed by `fmt.Sprintf("%.2f", x)`: two decimals, a tie going
to the even neighbour -/
def sprintf2 (x : ℚ) : ℚ :=
  let y := x * 100
  let f := ⌊y⌋
  let r := y - f
  let n : Int := if r < 1 / 2 then f else if 1 / 2 < r then f + 1 else if f % 2 = 0 then f else f + 1
  (n : ℚ) / 100

/-- The attribute map that `storeComponent` passes to `PutItem` -/
def componentItem (component : Component) (result : MonitoringResult) : Item :=
  { serviceName := some component.Name
    status := some component.Status
    internalResponseTimeMs := some (sprintf2 component.ResponseTimeMs)
    totalResponseTimeMs := some result.TotalResponseTimeMs
    lastChecked := some result.Timestamp.Format }

/-- The errors `StoreResults` returns -/
inductive StoreError where
  | noComponents
  | failedToStore (count : Nat) (errors : List String)
deriving DecidableEq, Repr

/-- What the write path takes from outside: the order in which the goroutines
of one `StoreResults` call run, and whether the `PutItem` call of goroutine `i`
(the one started for `result.Components[i]`) fails -/
structure PutRuntime where
  schedule : List (Nat × Component) → List (Nat × Component)
  putFails : Nat → Bool

/-- The table and the bookkeeping of one `StoreResults` call: every `PutItem`
call issued, the table (a successful put adds its item), and the errors sent
on `errCh` -/
structure StoreState where
  puts : List Item
  table : List Item
  errors : List String
deriving DecidableEq, Repr

/-- Go `storeComponent`, run by goroutine `i`; its error goes to `errCh` -/
def storeComponent (env : PutRuntime) (result : MonitoringResult) (st : StoreState)
    (job : Nat × Component) : StoreState :=
  let item := componentItem job.2 result
  if env.putFails job.1 then
    { puts := st.puts ++ [item]
      table := st.table
      errors := st.errors ++ ["failed to store component " ++ job.2.Name] }
  else
    { puts := st.puts ++ [item], table := st.table ++ [item], errors := st.errors }

/-- Go `StoreResults` on the table `table`: the final state and the returned
error (`none` is `nil`) -/
def StoreResults (env : PutRuntime) (table : List Item) (result : MonitoringResult) :
    StoreState × Option StoreError :=
  if result.Components.length = 0 then
    (⟨[], table, []⟩, some StoreError.noComponents)
  else
    let st := (env.schedule result.Components.enum).foldl (storeComponent env result)
      ⟨[], table, []⟩
    if st.errors.length > 0 then
      (st, some (StoreError.failedToStore st.errors.length st.errors))
    else (st, none)

/-! ## Probe (`internal/monitoring`) and ingest cycle (`internal/handler`) -/

/-- The Go type `models.HealthStatusResponse` -/
structure HealthStatusResponse where
  Timestamp : String
  OverallStatus : String
  Components : List Component
deriving DecidableEq, Repr

/-- What the HTTP library does with the one request of `CheckHealth`:
`http.NewRequest` fails, `client.Do` fails, or a response arrives with a status
code and a body which the JSON decoder turns into a `HealthStatusResponse` or
rejects (`none`) -/
inductive ProbeOutcome where
  | badRequest
  | transportError
  | response (statusCode : Int) (body : Option HealthStatusResponse)
deriving DecidableEq, Repr

/-- What `CheckHealth` takes from outside: the outcome of the request, the
milliseconds `time.Since(start).Milliseconds()` measures, and the instant read
by `time.Now()` when the result is built -/
structure ProbeRuntime where
  outcome : ProbeOutcome
  elapsedMs : Int
  now : Int
deriving DecidableEq, Repr

/-- The errors `CheckHealth` returns -/
inductive ProbeError where
  | createRequest
  | requestFailed
  | unexpectedStatus (statusCode : Int)
  | decodeFailed
deriving DecidableEq, Repr

/-- Go `CheckHealth` -/
def CheckHealth (probe : ProbeRuntime) : Except ProbeError MonitoringResult :=
  match probe.outcome with
  | .badRequest => .error ProbeError.createRequest
  | .transportError => .error ProbeError.requestFailed
  | .response statusCode body =>
    if statusCode ≠ 200 then .error (ProbeError.unexpectedStatus statusCode)
    else
      match body with
      | none => .error ProbeError.decodeFailed
      | some healthResp =>
        .ok { Components := healthResp.Components
              TotalResponseTimeMs := probe.elapsedMs
              Timestamp := ⟨probe.now, 0⟩ }

/-- The errors `Handle` returns, each wrapping its cause -/
inductive HandleError where
  | healthCheckFailed (cause : ProbeError)
  | storeFailed (cause : StoreError)
deriving DecidableEq, Repr

/-- Go `Handle` on the table `table`: the puts issued and the table
afterwards, and the returned error (`none` is `nil`) -/
def Handle (probe : ProbeRuntime) (env : PutRuntime) (table : List Item) :
    StoreState × Option HandleError :=
  match CheckHealth probe with
  | .error err => (⟨[], table, []⟩, some (HandleError.healthCheckFailed err))
  | .ok result =>
    match StoreResults env table result with
    | (st, some err) => (st, some (HandleError.storeFailed err))
    | (st, none) => (st, none)

/-! ## Notions of the specification -/

/-- The specification's membership of a record in the window of length `w`
(nanoseconds) ending at `now`: its `lastChecked` parses and is at or after
`now - w` -/
def inWindow (now : Time) (w : Int) (r : DynamoDBItem) : Bool :=
  match timeParse r.LastChecked with
  | some t => decide (now.unixNano - w ≤ t.unixNano)
  | none => false

/-- The specification's uptime of a window: 100 when the window holds no
record, else 100 times the operational records over all records of the window -/
def specUptime (now : Time) (w : Int) (items : List DynamoDBItem) : ℚ :=
  let S := items.filter (inWindow now w)
  if S.length = 0 then 100
  else 100 * ((S.filter (fun r => r.Status = "OPERATIONAL")).length : ℚ) / (S.length : ℚ)

/-- The records that the first loop of `generateStatusHistory` keeps: the
`lastChecked` parses and is not before `cutoff` -/
def keptSince (cutoff : Time) (r : DynamoDBItem) : Bool :=
  match timeParse r.LastChecked with
  | some t => decide (cutoff.unixNano ≤ t.unixNano)
  | none => false

/-- The records that `generateStatusHistory` finds under the key of the day
`d` days before `now`, in the order given: those it keeps whose day key, taken
in the zone of the record's own `lastChecked` string, equals the day key of
`now.AddDate(0, 0, -d)`, taken in the local zone -/
def keyedBucket (now : LocalTime) (days : Int) (d : Nat) (items : List DynamoDBItem) :
    List DynamoDBItem :=
  (items.filter (keptSince (now.AddDate (-days)).toTime)).filter
    (fun r => (parseOrZero r.LastChecked).dayKey = (now.AddDate (-(d : Int))).toTime.dayKey)

/-- The civil day on which the instant of `t` falls in the zone `l` -/
def Location.dayKeyOf (l : Location) (t : Time) : Int :=
  (unixSeconds t.unixNano + (l.lookup (unixSeconds t.unixNano)).offset) / secondsPerDay

/-- The specification's bucket of the timeline day `d` days before `now`: the
records, in the order given, whose `lastChecked` parses, is at or after `now`
minus `days` days, and falls on the civil date of that day, record and day
both taken in the local evaluation zone -/
def specDayBucket (now : LocalTime) (days : Int) (d : Nat) (items : List DynamoDBItem) :
    List DynamoDBItem :=
  (items.filter (keptSince (now.AddDate (-days)).toTime)).filter
    (fun r => now.loc.dayKeyOf (parseOrZero r.LastChecked) =
      now.loc.dayKeyOf (now.AddDate (-(d : Int))).toTime)

/-- The specification's status of a day from its bucket: the status of the
first record that is not `OPERATIONAL`, and `OPERATIONAL` when there is none -/
def specDayStatus (bucket : List DynamoDBItem) : String :=
  match bucket.find? (fun r => decide (r.Status ≠ "OPERATIONAL")) with
  | some r => r.Status
  | none => "OPERATIONAL"

/-- The scanned record has a `lastChecked` attribute that parses -/
def Item.parseable (it : Item) : Bool := (it.lastChecked.bind timeParse).isSome

/-- The decoded record has a `LastChecked` that parses -/
def DynamoDBItem.parseable (d : DynamoDBItem) : Bool := (timeParse d.LastChecked).isSome

/-- The decoded records of service `s` among the scanned records that have a
parseable `lastChecked` -/
def parseableRecords (items : List Item) (s : String) : List DynamoDBItem :=
  ((items.filter Item.parseable).map decodeItem).filter (fun d => d.ServiceName = s)

/-- The `lastChecked` of a scanned record cut down to the whole second: the
instant of the string without its fraction of a second, in the zone of the
string; the zero time when the attribute is missing or does not parse -/
def wholeSecondLastChecked (it : Item) : Time :=
  match it.lastChecked with
  | some (TimeStr.rfc3339 n z) => ⟨n / nanosPerSecond * nanosPerSecond, z * 60⟩
  | _ => Time.zero

/-- The goroutines of one `StoreResults` call whose `PutItem` fails -/
def failedJobs (env : PutRuntime) (result : MonitoringResult) : List (Nat × Component) :=
  result.Components.enum.filter (fun j => env.putFails j.1)

/-- The goroutines of one `StoreResults` call whose `PutItem` succeeds -/
def passedJobs (env : PutRuntime) (result : MonitoringResult) : List (Nat × Component) :=
  result.Components.enum.filter (fun j => !env.putFails j.1)

/-- The specification's cases in which an ingest cycle must write nothing:
the probe fails (the request cannot be built or sent, the status is not 200,
or the body cannot be decoded), or it succeeds with no component -/
def NothingToWrite (outcome : ProbeOutcome) : Prop :=
  outcome = ProbeOutcome.badRequest ∨
  outcome = ProbeOutcome.transportError ∨
  (∃ statusCode body, outcome = ProbeOutcome.response statusCode body ∧ statusCode ≠ 200) ∨
  outcome = ProbeOutcome.response 200 none ∨
  (∃ healthResp, outcome = ProbeOutcome.response 200 (some healthResp) ∧
    healthResp.Components = [])

/-- The specification's range of an uptime percentage -/
def InPercentRange (x : ℚ) : Prop := 0 ≤ x ∧ x ≤ 100

/-! ## What the runtime is relied on for -/

/-- What the runtime is relied on for: `sort.Slice` permutes its slice into an
order in which no later element is less than an earlier one, and `range`
visits every entry of a map exactly once -/
structure Runtime.Faithful (rt : Runtime) : Prop where
  sort_perm : ∀ l, (rt.sortSlice latestFirst l).Perm l
  sort_sorted : ∀ l, (rt.sortSlice latestFirst l).Pairwise (fun a b => latestFirst b a = false)
  range_perm : ∀ m, (rt.mapRange m).Perm m

/-- The reading of the wall clock of the zone at the instant of `t`, in seconds -/
def LocalTime.wallClock (t : LocalTime) : Int :=
  unixSeconds t.unixNano + (t.loc.lookup (unixSeconds t.unixNano)).offset

/-- The zone has the UTC offset `o` at every second from `lo` to `hi` -/
def Location.KeepsOffset (l : Location) (o lo hi : Int) : Prop :=
  ∀ sec, lo ≤ sec → sec ≤ hi → (l.lookup sec).offset = o

/-- Any two UTC offsets of the zone differ by less than one day -/
def Location.OffsetsWithinADay (l : Location) : Prop :=
  ∀ s t, (l.lookup s).offset - (l.lookup t).offset < secondsPerDay

/-! ## Notions used by the proofs -/

/-- The flag `overallOperational` says that every component emitted so far is
`OPERATIONAL` -/
def FlagInv (st : ReadState) : Prop :=
  st.overallOperational = true ↔ ∀ c ∈ st.components, c.Status = "OPERATIONAL"

/-- Grouping a list by a key, the way both maps of the read path are filled -/
def groupByKey {κ : Type} [DecidableEq κ] (key : DynamoDBItem → κ) (l : List DynamoDBItem) :
    List (κ × List DynamoDBItem) :=
  l.foldl (fun m x => mapAppend m (key x) x) []

/-- The component that the second loop of `GetCurrentStatus` emits for the
group `entry` when `k` readings of `time.Now()` were taken before -/
def EmittedFor (rt : Runtime) (entry : String × List DynamoDBItem) (c : ComponentStatus) :
    Prop :=
  ∃ latest rest k, rt.sortSlice latestFirst entry.2 = latest :: rest ∧
    c = { Name := entry.1
          Status := latest.Status
          InternalResponseTimeMs := latest.InternalResponseTimeMs
          TotalResponseTimeMs := latest.TotalResponseTimeMs
          LastChecked := parseOrZero latest.LastChecked
          UptimePercent := (calculateUptime (rt.now k).toTime (latest :: rest)).Last24Hours
          StatusHistory := generateStatusHistory (rt.now (k + 1)) (latest :: rest) 90 }

/-! ## Concrete runtimes and inputs used by the examples -/

/-- A stable insertion sort by the comparison `less`, one admissible behaviour
of `sort.Slice` -/
def insertionSortBy (less : DynamoDBItem → DynamoDBItem → Bool) (l : List DynamoDBItem) :
    List DynamoDBItem :=
  l.insertionSort (fun a b => less b a = false)

/-- A runtime: insertion sort, maps visited in insertion order, and a clock
that stands at `now` in the zone `loc` during the read -/
def runtimeAt (now : Int) (loc : Location) : Runtime :=
  { sortSlice := insertionSortBy
    mapRange := fun m => m
    now := fun _ => ⟨now, loc⟩ }

/-- The instant 2025-01-10T12:00:00Z -/
def noon : Int := 1736510400 * nanosPerSecond

/-- The instant 2025-01-10T20:00:00Z, which is 01:30 of 2025-01-11 in a zone at
UTC+05:30 -/
def evening : Int := 1736539200 * nanosPerSecond

/-- The instant 2025-03-10T16:00:00Z, noon in New York -/
def marchNoon : Int := 1741622400 * nanosPerSecond

/-- The zone table of New York for 2025: the offset goes from -5h to -4h at
2025-03-09T07:00:00Z and back to -5h at 2025-11-02T06:00:00Z -/
def newYork2025 : Location := ⟨-18000, [(1741503600, -14400), (1762063200, -18000)]⟩

/-- The instant 2025-11-02T06:30:00Z, the second 01:30 of that night in New
York -/
def secondHalfPastOne : Int := 1762065000 * nanosPerSecond

/-- The zone table of Apia around 2011-12-30T10:00:00Z, when the offset goes
from -10h to +14h and the civil date 2011-12-30 is skipped -/
def apia : Location := ⟨-36000, [(1325239200, 50400)]⟩

/-- The instant 2012-01-04T22:00:00Z, noon of 2012-01-05 in Apia -/
def apiaNoon : Int := 1325714400 * nanosPerSecond

/-- A zone table in the manner of Kolkata: one change long ago, at
1945-10-14T17:30:00Z, from +06:30 to +05:30 -/
def kolkata : Location := ⟨23400, [(-764145000, 19800)]⟩

/-- The zone table of New York around the change of 2025-03-09T07:00:00Z, when
the offset goes from -5h to -4h -/
def newYork : Location := ⟨-18000, [(1741503600, -14400)]⟩

/-- A record of service `api` with the given status, checked `h` hours before
`noon` -/
def apiRecord (status : String) (h : Int) : DynamoDBItem :=
  { ServiceName := "api", Status := status, InternalResponseTimeMs := 30,
    TotalResponseTimeMs := 120, LastChecked := TimeStr.rfc3339 (noon - h * Hour) 0 }

/-- Scenario S3: ten records within the last 24 hours, nine `OPERATIONAL` and
one `DOWN` -/
def tenRecords : List DynamoDBItem :=
  [apiRecord "OPERATIONAL" 1, apiRecord "OPERATIONAL" 2, apiRecord "OPERATIONAL" 3,
   apiRecord "DOWN" 4, apiRecord "OPERATIONAL" 5, apiRecord "OPERATIONAL" 6,
   apiRecord "OPERATIONAL" 7, apiRecord "OPERATIONAL" 8, apiRecord "OPERATIONAL" 9,
   apiRecord "OPERATIONAL" 10]

/-- A scanned record of service `api`, status `OPERATIONAL`, whose
`lastChecked` is 2025-01-10T12:00:00.1Z -/
def earlierItem : Item :=
  { serviceName := some "api", status := some "OPERATIONAL", internalResponseTimeMs := some 30,
    totalResponseTimeMs := some 120, lastChecked := some (TimeStr.rfc3339 (noon + 100000000) 0) }

/-- A scanned record of service `api`, status `DOWN`, whose `lastChecked` is
2025-01-10T12:00:00.9Z -/
def laterItem : Item :=
  { serviceName := some "api", status := some "DOWN", internalResponseTimeMs := some 5000,
    totalResponseTimeMs := some 130, lastChecked := some (TimeStr.rfc3339 (noon + 900000000) 0) }

/-- A scanned record of service `db`, status `DOWN`, whose `lastChecked` is the
empty string -/
def malformedItem : Item :=
  { serviceName := some "db", status := some "DOWN", internalResponseTimeMs := some 5000,
    totalResponseTimeMs := some 120, lastChecked := some TimeStr.invalid }

/-- A scanned record of service `db`, status `OPERATIONAL`, checked at `noon` -/
def goodItem : Item :=
  { serviceName := some "db", status := some "OPERATIONAL", internalResponseTimeMs := some 12,
    totalResponseTimeMs := some 120, lastChecked := some (TimeStr.rfc3339 noon 0) }

/-- Scenario S2: the poll result with `api` operational and `db` down, taken
at `evening` in UTC -/
def degradedPoll : MonitoringResult :=
  { Components := [⟨"api", "OPERATIONAL", 30⟩, ⟨"db", "DOWN", 5000⟩]
    TotalResponseTimeMs := 120
    Timestamp := ⟨evening, 0⟩ }

/-- A poll result with three components -/
def threePoll : MonitoringResult :=
  { Components := [⟨"api", "OPERATIONAL", 30⟩, ⟨"db", "OPERATIONAL", 12⟩, ⟨"cache", "DOWN", 5000⟩]
    TotalResponseTimeMs := 120
    Timestamp := ⟨noon, 0⟩ }

/-- A write path in which the goroutines run in slice order and every
`PutItem` succeeds -/
def allPutsSucceed : PutRuntime :=
  { schedule := fun jobs => jobs, putFails := fun _ => false }

/-- A write path in which the goroutines run in reverse order and the put of
the second component fails -/
def secondPutFails : PutRuntime :=
  { schedule := fun jobs => jobs.reverse, putFails := fun i => decide (i = 1) }

/-- The record of `db` that scenario S2 leaves in the table, as decoded -/
def dbDownRecord : DynamoDBItem :=
  { ServiceName := "db", Status := "DOWN", InternalResponseTimeMs := 5000,
    TotalResponseTimeMs := 120, LastChecked := TimeStr.rfc3339 evening 0 }

/-- The table after scenario S2 was stored into an empty table -/
def degradedTable : List Item := (StoreResults allPutsSucceed [] degradedPoll).1.table

/-- Scenario S5: the upstream answers 200 with an empty component list -/
def emptyProbe : ProbeRuntime :=
  { outcome := ProbeOutcome.response 200 (some ⟨"2025-01-10T12:00:00Z", "OPERATIONAL", []⟩)
    elapsedMs := 120
    now := noon }

/-! # Theorems -/

/-! ## Lemmas on `calculateUptime` -/

theorem uptimeStep_eq (now : Time) (w : Int) (acc : Nat × Nat) (r : DynamoDBItem) :
    uptimeStep (now.Add (-w)) acc r =
      if inWindow now w r then
        (acc.1 + 1, if r.Status = "OPERATIONAL" then acc.2 + 1 else acc.2)
      else acc := by
  unfold uptimeStep inWindow Time.Before Time.Add
  cases h : timeParse r.LastChecked with
  | none => simp
  | some t =>
    by_cases hlt : t.unixNano < now.unixNano + -w
    · have h2 : ¬ (now.unixNano - w ≤ t.unixNano) := by omega
      simp [hlt, h2]
    · have h2 : now.unixNano - w ≤ t.unixNano := by omega
      simp [hlt, h2]

theorem foldl_uptimeStep (now : Time) (w : Int) (items : List DynamoDBItem) (acc : Nat × Nat) :
    items.foldl (uptimeStep (now.Add (-w))) acc =
      (acc.1 + (items.filter (inWindow now w)).length,
        acc.2 + ((items.filter (inWindow now w)).filter
          (fun r => r.Status = "OPERATIONAL")).length) := by
  induction items generalizing acc with
  | nil => simp
  | cons r rest ih =>
    rw [List.foldl_cons, ih, uptimeStep_eq]
    by_cases hw : inWindow now w r = true
    · by_cases hs : r.Status = "OPERATIONAL"
      · simp [hw, hs]; omega
      · simp [hw, hs]; omega
    · simp [hw]

theorem periodUptime_eq_spec (now : Time) (w : Int) (items : List DynamoDBItem) :
    periodUptime now w items = specUptime now w items := by
  unfold periodUptime specUptime
  simp only [foldl_uptimeStep, Nat.zero_add]
  by_cases h : (items.filter (inWindow now w)).length = 0
  · simp [h]
  · have hpos : 0 < (items.filter (inWindow now w)).length := Nat.pos_of_ne_zero h
    simp only [gt_iff_lt, hpos, if_true, h, if_false]
    ring

/-! ## C1 -/

/-- C1: for every list of records and every instant `now`, `calculateUptime`
returns, for each of the windows 24h, 7d and 30d, the value 100 when no record
has a parseable `lastChecked` at or after `now - W`, and otherwise 100 times
the number of in-window records with status `OPERATIONAL` divided by the
number of in-window records; nine `OPERATIONAL` records and one `DOWN` record
inside the last 24 hours give `Last24Hours = 90`. -/
theorem calculateUptime_spec :
    (∀ (now : Time) (items : List DynamoDBItem),
      (calculateUptime now items).Last24Hours = specUptime now (24 * Hour) items ∧
      (calculateUptime now items).Last7Days = specUptime now (7 * 24 * Hour) items ∧
      (calculateUptime now items).Last30Days = specUptime now (30 * 24 * Hour) items) ∧
    (tenRecords.filter (inWindow ⟨noon, 0⟩ (24 * Hour))).length = 10 ∧
    (calculateUptime ⟨noon, 0⟩ tenRecords).Last24Hours = 90 := by
  refine ⟨fun now items => ⟨?_, ?_, ?_⟩, by decide, ?_⟩
  · exact periodUptime_eq_spec now _ items
  · exact periodUptime_eq_spec now _ items
  · exact periodUptime_eq_spec now _ items
  · show periodUptime ⟨noon, 0⟩ (24 * Hour) tenRecords = 90
    rw [periodUptime_eq_spec]
    have h1 : (tenRecords.filter (inWindow ⟨noon, 0⟩ (24 * Hour))).length = 10 := by decide
    have h2 : ((tenRecords.filter (inWindow ⟨noon, 0⟩ (24 * Hour))).filter
        (fun r => r.Status = "OPERATIONAL")).length = 9 := by decide
    unfold specUptime
    simp only [h1, h2]
    norm_num

/-! ## Lemmas on the flag `overallOperational` -/

theorem processGroup_flagInv (rt : Runtime) (st : ReadState)
    (entry : String × List DynamoDBItem) (h : FlagInv st) :
    FlagInv (processGroup rt st entry) := by
  unfold processGroup
  cases hs : rt.sortSlice latestFirst entry.2 with
  | nil => simpa using h
  | cons latest rest =>
    unfold FlagInv at h ⊢
    by_cases hop : latest.Status = "OPERATIONAL"
    · simp only [hop, ne_eq, not_true_eq_false, if_false, h, List.mem_append,
        List.mem_singleton]
      constructor
      · rintro hall c (hc | rfl)
        · exact hall c hc
        · rfl
      · intro hall c hc
        exact hall c (Or.inl hc)
    · simp only [hop, ne_eq, not_false_eq_true, if_true, List.mem_append, List.mem_singleton]
      constructor
      · intro hf
        exact absurd hf (by simp)
      · intro hall
        exact absurd (hall _ (Or.inr rfl)) hop

theorem foldl_processGroup_flagInv (rt : Runtime) (groups : List (String × List DynamoDBItem))
    (st : ReadState) (h : FlagInv st) :
    FlagInv (groups.foldl (processGroup rt) st) := by
  induction groups generalizing st with
  | nil => exact h
  | cons g rest ih => exact ih _ (processGroup_flagInv rt st g h)

/-! ## C2 -/

/-- C2: for every scan result, the `SystemStatus` returned by `GetCurrentStatus`
has `overallStatus = "OPERATIONAL"` if and only if every `ComponentStatus` in
its components list has status exactly `"OPERATIONAL"`, and otherwise
`overallStatus = "DEGRADED"`. -/
theorem overallStatus_iff (rt : Runtime) (items : List Item) :
    ((GetCurrentStatus rt items).OverallStatus = "OPERATIONAL" ↔
      ∀ c ∈ (GetCurrentStatus rt items).Components, c.Status = "OPERATIONAL") ∧
    ((¬ ∀ c ∈ (GetCurrentStatus rt items).Components, c.Status = "OPERATIONAL") →
      (GetCurrentStatus rt items).OverallStatus = "DEGRADED") := by
  have inv : FlagInv ((rt.mapRange (buildComponentMap items)).foldl (processGroup rt)
      ⟨[], true, Time.zero, 0⟩) :=
    foldl_processGroup_flagInv rt _ _ (by simp [FlagInv])
  unfold FlagInv at inv
  unfold GetCurrentStatus
  simp only
  rw [← inv]
  cases ((rt.mapRange (buildComponentMap items)).foldl (processGroup rt)
      ⟨[], true, Time.zero, 0⟩).overallOperational <;> simp

/-! ## Lemmas on maps kept as association lists and on `GetCurrentStatus` -/

theorem mapLookup_mapAppend {κ : Type} [DecidableEq κ] (m : List (κ × List DynamoDBItem))
    (k k1 : κ) (x : DynamoDBItem) :
    mapLookup (mapAppend m k x) k1 =
      if k1 = k then some ((mapLookup m k).getD [] ++ [x]) else mapLookup m k1 := by
  induction m with
  | nil =>
    by_cases h : k1 = k
    · subst h; simp [mapAppend, mapLookup]
    · have h2 : ¬ k = k1 := fun e => h e.symm
      simp [mapAppend, mapLookup, h, h2]
  | cons e rest ih =>
    obtain ⟨k0, v⟩ := e
    by_cases h0 : k0 = k
    · subst h0
      by_cases h : k1 = k0
      · subst h; simp [mapAppend, mapLookup]
      · have h2 : ¬ k0 = k1 := fun e => h e.symm
        simp [mapAppend, mapLookup, h, h2]
    · by_cases h : k1 = k
      · subst h
        have h2 : ¬ k0 = k1 := h0
        simp [mapAppend, mapLookup, h0] at ih ⊢
        simpa using ih
      · by_cases h3 : k0 = k1
        · subst h3; simp [mapAppend, mapLookup, h0]
        · simp [mapAppend, mapLookup, h0, h3, h] at ih ⊢
          simpa [h] using ih

theorem keys_mapAppend {κ : Type} [DecidableEq κ] (m : List (κ × List DynamoDBItem))
    (k : κ) (x : DynamoDBItem) :
    (mapAppend m k x).map Prod.fst =
      if k ∈ m.map Prod.fst then m.map Prod.fst else m.map Prod.fst ++ [k] := by
  induction m with
  | nil => simp [mapAppend]
  | cons e rest ih =>
    obtain ⟨k0, v⟩ := e
    by_cases h0 : k0 = k
    · subst h0; simp [mapAppend]
    · have h2 : ¬ k = k0 := fun e => h0 e.symm
      simp only [mapAppend, h0, if_false, List.map_cons, ih, List.mem_cons, h2, false_or]
      split <;> simp

theorem mem_iff_mapLookup {κ : Type} [DecidableEq κ] (m : List (κ × List DynamoDBItem))
    (hnd : (m.map Prod.fst).Nodup) (k : κ) (v : List DynamoDBItem) :
    (k, v) ∈ m ↔ mapLookup m k = some v := by
  induction m with
  | nil => simp [mapLookup]
  | cons e rest ih =>
    obtain ⟨k0, v0⟩ := e
    simp only [List.map_cons, List.nodup_cons] at hnd
    by_cases h0 : k0 = k
    · subst h0
      have hno : (k0, v) ∉ rest := fun hm => hnd.1 (List.mem_map_of_mem Prod.fst hm)
      simp only [List.mem_cons, Prod.mk.injEq, true_and, hno, or_false, mapLookup, if_true,
        Option.some.injEq]
      exact eq_comm
    · have h2 : ¬ k = k0 := fun e => h0 e.symm
      simp [mapLookup, h0, h2, ih hnd.2]

theorem groupByKey_append {κ : Type} [DecidableEq κ] (key : DynamoDBItem → κ)
    (l : List DynamoDBItem) (x : DynamoDBItem) :
    groupByKey key (l ++ [x]) = mapAppend (groupByKey key l) (key x) x := by
  simp [groupByKey, List.foldl_append]

theorem mapLookup_groupByKey {κ : Type} [DecidableEq κ] (key : DynamoDBItem → κ)
    (l : List DynamoDBItem) (k : κ) :
    mapLookup (groupByKey key l) k =
      if l.filter (fun x => key x = k) = [] then none
      else some (l.filter (fun x => key x = k)) := by
  induction l using List.reverseRecOn with
  | nil => simp [groupByKey, mapLookup]
  | append_singleton l x ih =>
    rw [groupByKey_append, mapLookup_mapAppend]
    by_cases h : k = key x
    · subst h
      rw [ih]
      by_cases he : l.filter (fun y => key y = key x) = []
      · simp [List.filter_append, he]
      · simp [List.filter_append, he]
    · have h2 : ¬ key x = k := fun e => h e.symm
      simp [h, ih, List.filter_append, h2]

theorem keys_groupByKey_nodup {κ : Type} [DecidableEq κ] (key : DynamoDBItem → κ)
    (l : List DynamoDBItem) : ((groupByKey key l).map Prod.fst).Nodup := by
  induction l using List.reverseRecOn with
  | nil => simp [groupByKey]
  | append_singleton l x ih =>
    rw [groupByKey_append, keys_mapAppend]
    split
    · exact ih
    · rename_i hk
      exact List.Nodup.append ih (List.nodup_singleton _) (by simpa using hk)

theorem mem_groupByKey {κ : Type} [DecidableEq κ] (key : DynamoDBItem → κ)
    (l : List DynamoDBItem) (k : κ) (v : List DynamoDBItem) :
    (k, v) ∈ groupByKey key l ↔ (v = l.filter (fun x => key x = k) ∧ v ≠ []) := by
  rw [mem_iff_mapLookup _ (keys_groupByKey_nodup key l), mapLookup_groupByKey]
  by_cases he : l.filter (fun x => key x = k) = []
  · simp only [he, if_true]
    constructor
    · intro h; cases h
    · rintro ⟨h1, h2⟩; exact absurd h1 h2
  · simp only [he, if_false, Option.some.injEq]
    constructor
    · intro h; subst h; exact ⟨rfl, he⟩
    · rintro ⟨h1, _⟩; exact h1.symm

theorem buildComponentMap_eq (items : List Item) :
    buildComponentMap items =
      groupByKey (fun d => d.ServiceName) (items.map decodeItem) := by
  unfold buildComponentMap groupByKey
  rw [List.foldl_map]

theorem mem_processGroup (rt : Runtime) (st : ReadState) (entry : String × List DynamoDBItem)
    (c : ComponentStatus) (hc : c ∈ (processGroup rt st entry).components) :
    c ∈ st.components ∨ EmittedFor rt entry c := by
  unfold processGroup at hc
  cases hs : rt.sortSlice latestFirst entry.2 with
  | nil => rw [hs] at hc; exact Or.inl hc
  | cons latest rest =>
    rw [hs] at hc
    simp only [List.mem_append, List.mem_singleton] at hc
    rcases hc with hc | hc
    · exact Or.inl hc
    · exact Or.inr ⟨latest, rest, st.clock, hs, hc⟩

theorem mem_foldl_processGroup (rt : Runtime) (groups : List (String × List DynamoDBItem))
    (st : ReadState) (c : ComponentStatus)
    (hc : c ∈ (groups.foldl (processGroup rt) st).components) :
    c ∈ st.components ∨ ∃ g ∈ groups, EmittedFor rt g c := by
  induction groups generalizing st with
  | nil => exact Or.inl hc
  | cons g rest ih =>
    rcases ih (processGroup rt st g) hc with h | ⟨g1, hg1, he⟩
    · rcases mem_processGroup rt st g c h with h2 | h2
      · exact Or.inl h2
      · exact Or.inr ⟨g, List.mem_cons_self _ _, h2⟩
    · exact Or.inr ⟨g1, List.mem_cons_of_mem _ hg1, he⟩

theorem names_processGroup (rt : Runtime) (hperm : ∀ l, (rt.sortSlice latestFirst l).Perm l)
    (st : ReadState) (entry : String × List DynamoDBItem) (hne : entry.2 ≠ []) :
    (processGroup rt st entry).components.map (fun c => c.Name) =
      st.components.map (fun c => c.Name) ++ [entry.1] := by
  unfold processGroup
  cases hs : rt.sortSlice latestFirst entry.2 with
  | nil =>
    have h := hperm entry.2
    rw [hs] at h
    exact absurd (List.Perm.eq_nil h.symm) hne
  | cons latest rest => simp

theorem names_foldl_processGroup (rt : Runtime)
    (hperm : ∀ l, (rt.sortSlice latestFirst l).Perm l)
    (groups : List (String × List DynamoDBItem)) (st : ReadState)
    (hne : ∀ g ∈ groups, g.2 ≠ []) :
    (groups.foldl (processGroup rt) st).components.map (fun c => c.Name) =
      st.components.map (fun c => c.Name) ++ groups.map Prod.fst := by
  induction groups generalizing st with
  | nil => simp
  | cons g rest ih =>
    rw [List.foldl_cons, ih _ (fun g1 hg1 => hne g1 (List.mem_cons_of_mem _ hg1)),
      names_processGroup rt hperm st g (hne g (List.mem_cons_self _ _))]
    simp

theorem filter_eq_singleton_of_nodup {α β : Type} [DecidableEq β] (f : α → β) (l : List α)
    (hnd : (l.map f).Nodup) (c : α) (hc : c ∈ l) :
    l.filter (fun x => f x = f c) = [c] := by
  induction l with
  | nil => cases hc
  | cons a rest ih =>
    simp only [List.map_cons, List.nodup_cons] at hnd
    rcases List.mem_cons.mp hc with h | h
    · subst h
      have : rest.filter (fun x => f x = f c) = [] := by
        rw [List.filter_eq_nil_iff]
        intro x hx hfx
        simp only [decide_eq_true_eq] at hfx
        exact hnd.1 (hfx ▸ List.mem_map_of_mem f hx)
      simp [List.filter_cons, this]
    · have hne : ¬ f a = f c := fun e => hnd.1 (e ▸ List.mem_map_of_mem f h)
      simp [List.filter_cons, hne, ih hnd.2 h]

theorem components_structure (rt : Runtime) (hrt : rt.Faithful) (items : List Item) :
    ((GetCurrentStatus rt items).Components.map (fun c => c.Name)).Nodup ∧
    (∀ s, (∃ it ∈ items, (decodeItem it).ServiceName = s) →
      s ∈ (GetCurrentStatus rt items).Components.map (fun c => c.Name)) ∧
    (∀ c ∈ (GetCurrentStatus rt items).Components,
      EmittedFor rt (c.Name, (items.map decodeItem).filter (fun d => d.ServiceName = c.Name)) c ∧
      (items.map decodeItem).filter (fun d => d.ServiceName = c.Name) ≠ []) := by
  have hm := buildComponentMap_eq items
  have hperm := hrt.range_perm (buildComponentMap items)
  have hmem : ∀ g ∈ rt.mapRange (buildComponentMap items),
      g.2 = (items.map decodeItem).filter (fun d => d.ServiceName = g.1) ∧ g.2 ≠ [] := by
    intro g hg
    have hg2 : (g.1, g.2) ∈ groupByKey (fun d => d.ServiceName) (items.map decodeItem) := by
      rw [← hm]; exact hperm.mem_iff.mp hg
    exact (mem_groupByKey _ _ _ _).mp hg2
  have hnames := names_foldl_processGroup rt hrt.sort_perm
    (rt.mapRange (buildComponentMap items)) ⟨[], true, Time.zero, 0⟩
    (fun g hg => (hmem g hg).2)
  simp only [List.map_nil, List.nil_append] at hnames
  have hcomp : (GetCurrentStatus rt items).Components =
      ((rt.mapRange (buildComponentMap items)).foldl (processGroup rt)
        ⟨[], true, Time.zero, 0⟩).components := rfl
  refine ⟨?_, ?_, ?_⟩
  · rw [hcomp, hnames]
    have hk := keys_groupByKey_nodup (fun d => d.ServiceName) (items.map decodeItem)
    rw [← hm] at hk
    exact (hperm.map Prod.fst).nodup_iff.mpr hk
  · rintro s ⟨it, hit, hs⟩
    rw [hcomp, hnames]
    have hfil : (items.map decodeItem).filter (fun d => d.ServiceName = s) ≠ [] := by
      intro he
      rw [List.filter_eq_nil_iff] at he
      exact he (decodeItem it) (List.mem_map_of_mem _ hit) (by simpa using hs)
    have hin : (s, (items.map decodeItem).filter (fun d => d.ServiceName = s)) ∈
        buildComponentMap items := by
      rw [hm]; exact (mem_groupByKey _ _ _ _).mpr ⟨rfl, hfil⟩
    exact List.mem_map_of_mem Prod.fst (hperm.mem_iff.mpr hin)
  · intro c hc
    rw [hcomp] at hc
    rcases mem_foldl_processGroup rt _ _ c hc with h | ⟨g, hg, he⟩
    · cases h
    · obtain ⟨latest, rest, k, hsort, hceq⟩ := he
      have hname : c.Name = g.1 := by rw [hceq]
      have hg2 := hmem g hg
      rw [hname, ← hg2.1]
      exact ⟨⟨latest, rest, k, hsort, hceq⟩, hg2.2⟩

theorem latest_is_max (rt : Runtime) (hrt : rt.Faithful) (l : List DynamoDBItem)
    (latest : DynamoDBItem) (rest : List DynamoDBItem)
    (hs : rt.sortSlice latestFirst l = latest :: rest) :
    latest ∈ l ∧ ∀ d ∈ l,
      (parseOrZero d.LastChecked).unixNano ≤ (parseOrZero latest.LastChecked).unixNano := by
  have hperm := hrt.sort_perm l
  have hsorted := hrt.sort_sorted l
  rw [hs] at hperm hsorted
  refine ⟨hperm.mem_iff.mp (List.mem_cons_self _ _), ?_⟩
  intro d hd
  rcases List.mem_cons.mp (hperm.mem_iff.mpr hd) with h | h
  · rw [h]
  · have := (List.pairwise_cons.mp hsorted).1 d h
    simp only [latestFirst, Time.After, decide_eq_false_iff_not, not_lt] at this
    exact this

theorem runtimeAt_faithful (now : Int) (loc : Location) : (runtimeAt now loc).Faithful := by
  have htotal : IsTotal DynamoDBItem (fun a b => latestFirst b a = false) :=
    ⟨fun a b => by
      simp only [latestFirst, Time.After, decide_eq_false_iff_not, not_lt]
      exact le_total _ _⟩
  have htrans : IsTrans DynamoDBItem (fun a b => latestFirst b a = false) :=
    ⟨fun a b c hab hbc => by
      simp only [latestFirst, Time.After, decide_eq_false_iff_not, not_lt] at hab hbc ⊢
      exact le_trans hbc hab⟩
  refine ⟨?_, ?_, ?_⟩
  · intro l
    exact List.perm_insertionSort _ l
  · intro l
    exact List.sorted_insertionSort _ l
  · intro m
    exact List.Perm.refl m

/-! ## Lemmas on the current state of a service -/

theorem decoded_lastChecked_eq (it : Item) :
    parseOrZero (decodeItem it).LastChecked = wholeSecondLastChecked it := by
  unfold decodeItem wholeSecondLastChecked
  cases h : it.lastChecked with
  | none => rfl
  | some v =>
    cases v with
    | invalid => rfl
    | rfc3339 n z =>
      simp only [timeParse, Time.Format, parseOrZero, Option.getD_some, unixSeconds]
      rw [Int.mul_tdiv_cancel z (by decide)]

/-- What `GetCurrentStatus` emits for a service: one component, whose
`lastChecked` is the maximum of the records' stamps cut down to the whole
second, with the fields of a record attaining that maximum -/
theorem currentState_latest (rt : Runtime) (hrt : rt.Faithful) (items : List Item) (s : String)
    (hs : ∃ it ∈ items, it.serviceName.getD "" = s) :
    ∃ c, (GetCurrentStatus rt items).Components.filter (fun c => c.Name = s) = [c] ∧
      (∀ it ∈ items, it.serviceName.getD "" = s →
        (wholeSecondLastChecked it).unixNano ≤ c.LastChecked.unixNano) ∧
      ∃ it ∈ items, it.serviceName.getD "" = s ∧
        c.LastChecked = wholeSecondLastChecked it ∧
        c.Status = it.status.getD "" ∧
        c.InternalResponseTimeMs = it.internalResponseTimeMs.getD 0 ∧
        c.TotalResponseTimeMs = it.totalResponseTimeMs.getD 0 := by
  obtain ⟨hnd, hex, hall⟩ := components_structure rt hrt items
  obtain ⟨c, hc, hname0⟩ := List.mem_map.mp (hex s hs)
  have hname : c.Name = s := hname0
  refine ⟨c, ?_, ?_⟩
  · have := filter_eq_singleton_of_nodup (fun c : ComponentStatus => c.Name) _ hnd c hc
    rw [← hname]
    exact this
  · obtain ⟨⟨latest, rest, k, hsort, hceq⟩, _⟩ := hall c hc
    rw [hname] at hsort
    obtain ⟨hin, hmax⟩ := latest_is_max rt hrt _ latest rest hsort
    have hlc : c.LastChecked = parseOrZero latest.LastChecked := by rw [hceq]
    refine ⟨?_, ?_⟩
    · intro it hit hsn
      rw [hlc, ← decoded_lastChecked_eq]
      apply hmax
      rw [List.mem_filter]
      exact ⟨List.mem_map_of_mem _ hit, by simpa using hsn⟩
    · rw [List.mem_filter] at hin
      obtain ⟨it, hit, hdec⟩ := List.mem_map.mp hin.1
      refine ⟨it, hit, ?_, ?_, ?_, ?_, ?_⟩
      · have h2 : (decodeItem it).ServiceName = s := by rw [hdec]; simpa using hin.2
        exact h2
      · rw [hlc, ← decoded_lastChecked_eq, hdec]
      · have h2 : c.Status = (decodeItem it).Status := by rw [hdec, hceq]
        exact h2
      · have h2 : c.InternalResponseTimeMs = (decodeItem it).InternalResponseTimeMs := by
          rw [hdec, hceq]
        exact h2
      · have h2 : c.TotalResponseTimeMs = (decodeItem it).TotalResponseTimeMs := by
          rw [hdec, hceq]
        exact h2

/-- When every record of the service is stamped at a whole second, as
`storeComponent` writes them, the component carries the maximum `lastChecked`
of the records and the fields of a record attaining it -/
theorem currentState_latest_of_whole_seconds (rt : Runtime) (hrt : rt.Faithful)
    (items : List Item) (s : String)
    (hs : ∃ it ∈ items, it.serviceName.getD "" = s)
    (hw : ∀ it ∈ items, it.serviceName.getD "" = s →
      ∃ n z, it.lastChecked = some (TimeStr.rfc3339 n z) ∧ n % nanosPerSecond = 0) :
    ∃ c, (GetCurrentStatus rt items).Components.filter (fun c => c.Name = s) = [c] ∧
      (∀ it ∈ items, it.serviceName.getD "" = s →
        ∀ t, it.lastChecked.bind timeParse = some t → t.unixNano ≤ c.LastChecked.unixNano) ∧
      ∃ it ∈ items, it.serviceName.getD "" = s ∧
        it.lastChecked.bind timeParse = some c.LastChecked ∧
        c.Status = it.status.getD "" ∧
        c.InternalResponseTimeMs = it.internalResponseTimeMs.getD 0 ∧
        c.TotalResponseTimeMs = it.totalResponseTimeMs.getD 0 := by
  have hwhole : ∀ it ∈ items, it.serviceName.getD "" = s →
      it.lastChecked.bind timeParse = some (wholeSecondLastChecked it) := by
    intro it hit hsn
    obtain ⟨n, z, hl, hmod⟩ := hw it hit hsn
    have hdiv := Int.ediv_add_emod n nanosPerSecond
    have hn : n / nanosPerSecond * nanosPerSecond = n := by
      rw [hmod] at hdiv
      linarith
    unfold wholeSecondLastChecked
    rw [hl]
    show some (⟨n, z * 60⟩ : Time) = some ⟨n / nanosPerSecond * nanosPerSecond, z * 60⟩
    rw [hn]
  obtain ⟨c, hfil, hmax, it, hit, hsn, hlc, hrest⟩ := currentState_latest rt hrt items s hs
  refine ⟨c, hfil, ?_, it, hit, hsn, ?_, hrest⟩
  · intro it2 hit2 hsn2 t ht
    have h1 := hwhole it2 hit2 hsn2
    rw [h1] at ht
    have h2 := hmax it2 hit2 hsn2
    rw [← Option.some.inj ht]
    exact h2
  · rw [hlc]
    exact hwhole it hit hsn

/-! ## C3 -/

/-- C3 at a failing input: service `api` has a record stamped
2025-01-10T12:00:00.1Z with status `OPERATIONAL` and a later one, stamped
2025-01-10T12:00:00.9Z, with status `DOWN`; the later one attains the maximum
`lastChecked`.  The component emitted for `api` has `lastChecked`
2025-01-10T12:00:00Z, which is the `lastChecked` of neither record, and the
status `OPERATIONAL` of the earlier record. -/
theorem currentState_not_latest :
    [earlierItem, laterItem].map
        (fun it => (it.serviceName, it.status, it.lastChecked.bind timeParse)) =
      [(some "api", some "OPERATIONAL", some ⟨noon + 100000000, 0⟩),
       (some "api", some "DOWN", some ⟨noon + 900000000, 0⟩)] ∧
    (GetCurrentStatus (runtimeAt noon UTC) [earlierItem, laterItem]).Components.map
      (fun c => (c.Name, c.Status, c.LastChecked)) = [("api", "OPERATIONAL", ⟨noon, 0⟩)] ∧
    (⟨noon, 0⟩ : Time) ≠ ⟨noon + 900000000, 0⟩ ∧
    (⟨noon, 0⟩ : Time) ≠ ⟨noon + 100000000, 0⟩ := by
  refine ⟨rfl, ?_, by decide, by decide⟩
  decide

/-! ## Lemmas on `generateStatusHistory` -/

theorem foldl_cons_eq_reverse_map {α β : Type} (f : α → β) (l : List α) (acc : List β) :
    l.foldl (fun points d => f d :: points) acc = (l.map f).reverse ++ acc := by
  induction l generalizing acc with
  | nil => simp
  | cons a rest ih => simp [ih]

theorem generateStatusHistory_eq (now : LocalTime) (items : List DynamoDBItem) (days : Int) :
    generateStatusHistory now items days =
      ((List.range days.toNat).map
        (historyPoint now (items.foldl (historyStep (now.AddDate (-days)).toTime) []))).reverse := by
  unfold generateStatusHistory
  simp only [foldl_cons_eq_reverse_map, List.append_nil]

theorem generateStatusHistory_length (now : LocalTime) (items : List DynamoDBItem) (days : Int) :
    (generateStatusHistory now items days).length = days.toNat := by
  rw [generateStatusHistory_eq]
  simp

theorem generateStatusHistory_getElem (now : LocalTime) (items : List DynamoDBItem) (days : Int)
    (i : Nat) (hi : i < days.toNat) :
    (generateStatusHistory now items days)[i]? =
      some (historyPoint now (items.foldl (historyStep (now.AddDate (-days)).toTime) [])
        (days.toNat - 1 - i)) := by
  rw [generateStatusHistory_eq]
  rw [List.getElem?_reverse (by simpa using hi)]
  simp only [List.length_map, List.length_range]
  rw [List.getElem?_map, List.getElem?_range (by omega)]
  rfl

theorem date_resolves_some_offset (wall nsec : Int) (l : Location) :
    ∃ x, (Date wall nsec l).unixNano = (wall - (l.lookup x).offset) * nanosPerSecond + nsec := by
  unfold Date
  by_cases h0 : (l.lookup wall).offset = 0
  · exact ⟨wall, by simp [h0]⟩
  · by_cases h1 : wall - (l.lookup wall).offset < (l.lookup wall).start ∨
        wall - (l.lookup wall).offset ≥ (l.lookup wall).stop
    · exact ⟨wall - (l.lookup wall).offset, by simp [h0, h1]⟩
    · exact ⟨wall, by simp [h0, h1]⟩

theorem date_of_keepsOffset (wall nsec : Int) (l : Location) (o lo hi : Int)
    (hk : l.KeepsOffset o lo hi) (h1 : lo ≤ wall) (h2 : wall ≤ hi) (h3 : lo ≤ wall - o)
    (h4 : wall - o ≤ hi) :
    (Date wall nsec l).unixNano = (wall - o) * nanosPerSecond + nsec := by
  have hw : (l.lookup wall).offset = o := hk wall h1 h2
  have hu : (l.lookup (wall - o)).offset = o := hk (wall - o) h3 h4
  unfold Date
  by_cases h0 : o = 0
  · simp [hw, h0]
  · by_cases hc : wall - o < (l.lookup wall).start ∨ wall - o ≥ (l.lookup wall).stop
    · simp [hw, h0, hc, hu]
    · simp [hw, h0, hc]

theorem addDate_unixNano (t : LocalTime) (k : Int) :
    (t.AddDate k).unixNano =
      (Date (t.wallClock + k * secondsPerDay) (t.unixNano % nanosPerSecond) t.loc).unixNano ∧
    (t.AddDate k).loc = t.loc := ⟨rfl, rfl⟩

theorem point_timestamp (now : LocalTime) (items : List DynamoDBItem) (d : Nat) (hd : d < 90) :
    (generateStatusHistory now items 90)[89 - d]? =
      some (historyPoint now (items.foldl (historyStep (now.AddDate (-90)).toTime) []) d) ∧
    (historyPoint now (items.foldl (historyStep (now.AddDate (-90)).toTime) []) d).Timestamp =
      (now.AddDate (-(d : Int))).toTime := by
  have h90 : (90 : Int).toNat = 90 := rfl
  have hidx : (90 : Int).toNat - 1 - (89 - d) = d := by rw [h90]; omega
  have h := generateStatusHistory_getElem now items 90 (89 - d) (by rw [h90]; omega)
  rw [hidx] at h
  exact ⟨h, rfl⟩

theorem newYork_keeps_summer_offset (lo hi : Int) (hlo : 1741503600 ≤ lo) :
    newYork.KeepsOffset (-14400) lo hi := by
  intro sec h1 _
  have hsec : ¬ sec < 1741503600 := by omega
  simp [Location.lookup, newYork, lookupFrom, hsec]

theorem kolkata_keeps_offset (lo hi : Int) (hlo : -764145000 ≤ lo) :
    kolkata.KeepsOffset 19800 lo hi := by
  intro sec h1 _
  have hsec : ¬ sec < -764145000 := by omega
  simp [Location.lookup, kolkata, lookupFrom, hsec]

theorem kolkata_offsets_within_a_day : kolkata.OffsetsWithinADay := by
  intro s t
  have h : ∀ x, (kolkata.lookup x).offset = 23400 ∨ (kolkata.lookup x).offset = 19800 := by
    intro x
    by_cases hx : x < -764145000
    · left; simp [Location.lookup, kolkata, lookupFrom, hx]
    · right; simp [Location.lookup, kolkata, lookupFrom, hx]
  unfold secondsPerDay
  rcases h s with h1 | h1 <;> rcases h t with h2 | h2 <;> rw [h1, h2] <;> decide

theorem kolkata_keeps_offset_over_timeline (d : Nat) (hd : d + 1 < 90) :
    kolkata.KeepsOffset 19800
      (LocalTime.wallClock ⟨noon, kolkata⟩ - ((d : Int) + 1) * secondsPerDay - |(19800 : Int)|)
      (LocalTime.wallClock ⟨noon, kolkata⟩ - (d : Int) * secondsPerDay + |(19800 : Int)|) := by
  apply kolkata_keeps_offset
  have hw : LocalTime.wallClock ⟨noon, kolkata⟩ = 1736530200 := by decide
  have habs : |(19800 : Int)| = 19800 := by decide
  rw [hw, habs]
  unfold secondsPerDay
  omega

/-! ## C4 -/

/-- C4 as stated fails in three ways.  In New York at noon of 2025-03-10 the
points for 2025-03-08 and 2025-03-09 are 23 hours apart.  In Apia at noon of
2012-01-05 the points for the skipped date 2011-12-30 and for 2011-12-31 are
the same instant, so the timestamps do not ascend strictly.  In New York at
2025-11-02T06:30:00Z, the second 01:30 of that night, the last point is
05:30:00Z, one hour before `now`. -/
theorem statusHistory_spacing_counterexample :
    (((generateStatusHistory ⟨marchNoon, newYork⟩ [] 90).map
        (fun p => p.Timestamp.unixNano))[87]? = some (1741453200 * nanosPerSecond) ∧
      ((generateStatusHistory ⟨marchNoon, newYork⟩ [] 90).map
        (fun p => p.Timestamp.unixNano))[88]? = some (1741536000 * nanosPerSecond) ∧
      1741536000 * nanosPerSecond - 1741453200 * nanosPerSecond = 23 * Hour) ∧
    (((generateStatusHistory ⟨apiaNoon, apia⟩ [] 90).map
        (fun p => p.Timestamp.unixNano))[83]? = some (1325282400 * nanosPerSecond) ∧
      ((generateStatusHistory ⟨apiaNoon, apia⟩ [] 90).map
        (fun p => p.Timestamp.unixNano))[84]? = some (1325282400 * nanosPerSecond)) ∧
    (((generateStatusHistory ⟨secondHalfPastOne, newYork2025⟩ [] 90).map
        (fun p => p.Timestamp.unixNano))[89]? = some (1762061400 * nanosPerSecond) ∧
      secondHalfPastOne - 1762061400 * nanosPerSecond = Hour) := by
  refine ⟨⟨?_, ?_, by decide⟩, ⟨?_, ?_⟩, ⟨?_, by decide⟩⟩
  · rw [List.getElem?_map, generateStatusHistory_getElem _ _ _ 87 (by decide)]
    decide
  · rw [List.getElem?_map, generateStatusHistory_getElem _ _ _ 88 (by decide)]
    decide
  · rw [List.getElem?_map, generateStatusHistory_getElem _ _ _ 83 (by decide)]
    decide
  · rw [List.getElem?_map, generateStatusHistory_getElem _ _ _ 84 (by decide)]
    decide
  · rw [List.getElem?_map, generateStatusHistory_getElem _ _ _ 89 (by decide)]
    decide

/-- C4, amended: for every list of records and every instant `now`, in any
local zone, `generateStatusHistory(items, 90)` returns exactly 90 points,
oldest first: the point at index `89 - d` is `now.AddDate(0, 0, -d)`.  The
last point is `now` whenever the zone keeps the offset it has at `now` around
the wall-clock reading of `now`.  The points `d + 1` and `d` days back are
exactly 24 hours apart whenever the zone keeps one UTC offset from the earlier
to the later of them.  The timestamps ascend strictly whenever any two UTC
offsets of the zone differ by less than one day. -/
theorem statusHistory_timeline (now : LocalTime) (items : List DynamoDBItem) :
    (generateStatusHistory now items 90).length = 90 ∧
    (∀ d : Nat, d < 90 →
      ((generateStatusHistory now items 90).map (fun p => p.Timestamp))[89 - d]? =
        some (now.AddDate (-(d : Int))).toTime) ∧
    (now.loc.KeepsOffset now.toTime.offset (now.wallClock - |now.toTime.offset|)
        (now.wallClock + |now.toTime.offset|) →
      ((generateStatusHistory now items 90).map (fun p => p.Timestamp))[89]? =
        some now.toTime) ∧
    (∀ (d : Nat) (o : Int), d + 1 < 90 →
      now.loc.KeepsOffset o (now.wallClock - ((d : Int) + 1) * secondsPerDay - |o|)
        (now.wallClock - (d : Int) * secondsPerDay + |o|) →
      ∃ a b, (generateStatusHistory now items 90)[89 - (d + 1)]? = some a ∧
        (generateStatusHistory now items 90)[89 - d]? = some b ∧
        b.Timestamp.unixNano = a.Timestamp.unixNano + 24 * Hour) ∧
    (now.loc.OffsetsWithinADay →
      ∀ i, i + 1 < 90 → ∃ a b,
        (generateStatusHistory now items 90)[i]? = some a ∧
        (generateStatusHistory now items 90)[i + 1]? = some b ∧
        a.Timestamp.unixNano < b.Timestamp.unixNano) := by
  refine ⟨generateStatusHistory_length now items 90, ?_, ?_, ?_, ?_⟩
  · intro d hd
    obtain ⟨h1, h2⟩ := point_timestamp now items d hd
    rw [List.getElem?_map, h1, Option.map_some', h2]
  · intro hk
    obtain ⟨h1, h2⟩ := point_timestamp now items 0 (by decide)
    rw [List.getElem?_map]
    have h1b : (generateStatusHistory now items 90)[89]? = some (historyPoint now
        (items.foldl (historyStep (now.AddDate (-90)).toTime) []) 0) := h1
    rw [h1b, Option.map_some', h2]
    have habs1 := abs_nonneg now.toTime.offset
    have habs2 := le_abs_self now.toTime.offset
    have habs3 := neg_abs_le now.toTime.offset
    have hnano : (now.AddDate (-((0 : Nat) : Int))).unixNano = now.unixNano := by
      rw [(addDate_unixNano now _).1]
      have hw0 : now.wallClock + -((0 : Nat) : Int) * secondsPerDay = now.wallClock := by simp
      rw [hw0]
      have hl1 : now.wallClock - |now.toTime.offset| ≤ now.wallClock := by linarith
      have hl2 : now.wallClock ≤ now.wallClock + |now.toTime.offset| := by linarith
      have hl3 : now.wallClock - |now.toTime.offset| ≤ now.wallClock - now.toTime.offset := by
        linarith
      have hl4 : now.wallClock - now.toTime.offset ≤ now.wallClock + |now.toTime.offset| := by
        linarith
      rw [date_of_keepsOffset _ _ _ _ _ _ hk hl1 hl2 hl3 hl4]
      have hdiv := Int.ediv_add_emod now.unixNano nanosPerSecond
      have hoff : now.wallClock - now.toTime.offset = now.unixNano / nanosPerSecond := by
        unfold LocalTime.wallClock LocalTime.toTime unixSeconds
        simp
      rw [hoff]
      linarith
    have hloc := (addDate_unixNano now (-((0 : Nat) : Int))).2
    unfold LocalTime.toTime
    rw [hloc, hnano]
  · intro d o hd hk
    obtain ⟨ha1, ha2⟩ := point_timestamp now items (d + 1) (by omega)
    obtain ⟨hb1, hb2⟩ := point_timestamp now items d (by omega)
    refine ⟨_, _, ha1, hb1, ?_⟩
    rw [ha2, hb2]
    show (now.AddDate (-((d : Nat) : Int))).unixNano =
      (now.AddDate (-((d + 1 : Nat) : Int))).unixNano + 24 * Hour
    have habs1 := abs_nonneg o
    have habs2 := le_abs_self o
    have habs3 := neg_abs_le o
    have hday : (0 : Int) < secondsPerDay := by decide
    have hdn : (0 : Int) ≤ (d : Int) := Int.ofNat_nonneg d
    rw [(addDate_unixNano now _).1, (addDate_unixNano now _).1]
    rw [date_of_keepsOffset _ _ _ _ _ _ hk (by nlinarith) (by nlinarith)
      (by nlinarith) (by nlinarith)]
    rw [date_of_keepsOffset _ _ _ _ _ _ hk (by push_cast; nlinarith) (by push_cast; nlinarith)
      (by push_cast; nlinarith) (by push_cast; nlinarith)]
    unfold Hour secondsPerDay nanosPerSecond
    push_cast
    ring
  · intro hw i hi
    obtain ⟨ha1, ha2⟩ := point_timestamp now items (89 - i) (by omega)
    obtain ⟨hb1, hb2⟩ := point_timestamp now items (89 - (i + 1)) (by omega)
    have hia : 89 - (89 - i) = i := by omega
    have hib : 89 - (89 - (i + 1)) = i + 1 := by omega
    rw [hia] at ha1
    rw [hib] at hb1
    refine ⟨_, _, ha1, hb1, ?_⟩
    rw [ha2, hb2]
    show (now.AddDate (-((89 - i : Nat) : Int))).unixNano <
      (now.AddDate (-((89 - (i + 1) : Nat) : Int))).unixNano
    rw [(addDate_unixNano now _).1, (addDate_unixNano now _).1]
    obtain ⟨x, hx⟩ := date_resolves_some_offset
      (now.wallClock + -((89 - i : Nat) : Int) * secondsPerDay)
      (now.unixNano % nanosPerSecond) now.loc
    obtain ⟨y, hy⟩ := date_resolves_some_offset
      (now.wallClock + -((89 - (i + 1) : Nat) : Int) * secondsPerDay)
      (now.unixNano % nanosPerSecond) now.loc
    rw [hx, hy]
    have hxy := hw y x
    have hcast : ((89 - i : Nat) : Int) = ((89 - (i + 1) : Nat) : Int) + 1 := by omega
    rw [hcast]
    unfold secondsPerDay at hxy ⊢
    unfold nanosPerSecond
    linarith

/-- C4, amended, in two zones that have an offset change.  In New York at
noon of 2025-03-10, one day after the change, the last point is `now` and
the points of 2025-03-09 and 2025-03-10 are 24 hours apart.  In a zone in the
manner of Kolkata, whose only change is long past, every two consecutive
points are 24 hours apart and the timestamps ascend strictly. -/
theorem statusHistory_timeline_witness :
    (newYork.KeepsOffset (LocalTime.toTime ⟨marchNoon, newYork⟩).offset
        (LocalTime.wallClock ⟨marchNoon, newYork⟩ - |(LocalTime.toTime ⟨marchNoon, newYork⟩).offset|)
        (LocalTime.wallClock ⟨marchNoon, newYork⟩ + |(LocalTime.toTime ⟨marchNoon, newYork⟩).offset|) ∧
      ((generateStatusHistory ⟨marchNoon, newYork⟩ tenRecords 90).map (fun p => p.Timestamp))[89]? =
        some (LocalTime.toTime ⟨marchNoon, newYork⟩)) ∧
    ((0 + 1 < 90 ∧
      newYork.KeepsOffset (-14400)
        (LocalTime.wallClock ⟨marchNoon, newYork⟩ - (((0 : Nat) : Int) + 1) * secondsPerDay - |(-14400 : Int)|)
        (LocalTime.wallClock ⟨marchNoon, newYork⟩ - ((0 : Nat) : Int) * secondsPerDay + |(-14400 : Int)|)) ∧
      ∃ a b, (generateStatusHistory ⟨marchNoon, newYork⟩ tenRecords 90)[89 - (0 + 1)]? = some a ∧
        (generateStatusHistory ⟨marchNoon, newYork⟩ tenRecords 90)[89 - 0]? = some b ∧
        b.Timestamp.unixNano = a.Timestamp.unixNano + 24 * Hour) ∧
    (∀ d : Nat, d + 1 < 90 → ∃ a b,
      (generateStatusHistory ⟨noon, kolkata⟩ tenRecords 90)[89 - (d + 1)]? = some a ∧
      (generateStatusHistory ⟨noon, kolkata⟩ tenRecords 90)[89 - d]? = some b ∧
      b.Timestamp.unixNano = a.Timestamp.unixNano + 24 * Hour) ∧
    (kolkata.OffsetsWithinADay ∧
      ∀ i, i + 1 < 90 → ∃ a b,
        (generateStatusHistory ⟨noon, kolkata⟩ tenRecords 90)[i]? = some a ∧
        (generateStatusHistory ⟨noon, kolkata⟩ tenRecords 90)[i + 1]? = some b ∧
        a.Timestamp.unixNano < b.Timestamp.unixNano) :=
  ⟨⟨newYork_keeps_summer_offset _ _ (by decide),
      (statusHistory_timeline ⟨marchNoon, newYork⟩ tenRecords).2.2.1
        (newYork_keeps_summer_offset _ _ (by decide))⟩,
    ⟨⟨by decide, newYork_keeps_summer_offset _ _ (by decide)⟩,
      (statusHistory_timeline ⟨marchNoon, newYork⟩ tenRecords).2.2.2.1 0 (-14400) (by decide)
        (newYork_keeps_summer_offset _ _ (by decide))⟩,
    fun d hd => (statusHistory_timeline ⟨noon, kolkata⟩ tenRecords).2.2.2.1 d 19800 hd
      (kolkata_keeps_offset_over_timeline d hd),
    ⟨kolkata_offsets_within_a_day,
      (statusHistory_timeline ⟨noon, kolkata⟩ tenRecords).2.2.2.2 kolkata_offsets_within_a_day⟩⟩

/-! ## Lemmas on the day buckets -/

theorem historyStep_eq (cutoff : Time) (m : List (Int × List DynamoDBItem)) (r : DynamoDBItem) :
    historyStep cutoff m r =
      if keptSince cutoff r then mapAppend m (parseOrZero r.LastChecked).dayKey r else m := by
  unfold historyStep keptSince parseOrZero Time.Before
  cases h : timeParse r.LastChecked with
  | none => simp
  | some t =>
    by_cases hlt : t.unixNano < cutoff.unixNano
    · have h2 : ¬ cutoff.unixNano ≤ t.unixNano := by omega
      simp [hlt, h2]
    · have h2 : cutoff.unixNano ≤ t.unixNano := by omega
      simp [hlt, h2]

theorem foldl_historyStep (cutoff : Time) (items : List DynamoDBItem)
    (m : List (Int × List DynamoDBItem)) :
    items.foldl (historyStep cutoff) m =
      (items.filter (keptSince cutoff)).foldl
        (fun m x => mapAppend m (parseOrZero x.LastChecked).dayKey x) m := by
  induction items generalizing m with
  | nil => rfl
  | cons r rest ih =>
    rw [List.foldl_cons, ih, historyStep_eq]
    by_cases hk : keptSince cutoff r = true
    · simp [List.filter_cons, hk]
    · simp [List.filter_cons, hk]

theorem worstStatus_eq (l : List DynamoDBItem) :
    worstStatus l =
      match l.find? (fun r => decide (r.Status ≠ "OPERATIONAL")) with
      | some r => r.Status
      | none => "OPERATIONAL" := by
  induction l with
  | nil => rfl
  | cons a rest ih =>
    by_cases h : a.Status = "OPERATIONAL"
    · simp [worstStatus, List.find?_cons, h, ih]
    · simp [worstStatus, List.find?_cons, h]

theorem historyPoint_status (now : LocalTime) (days : Int) (items : List DynamoDBItem) (d : Nat) :
    (historyPoint now (items.foldl (historyStep (now.AddDate (-days)).toTime) []) d).Status =
      worstStatus (keyedBucket now days d items) := by
  unfold historyPoint keyedBucket
  simp only
  rw [foldl_historyStep]
  have hl := mapLookup_groupByKey (fun x : DynamoDBItem => (parseOrZero x.LastChecked).dayKey)
    (items.filter (keptSince (now.AddDate (-days)).toTime))
    (now.AddDate (-(d : Int))).toTime.dayKey
  unfold groupByKey at hl
  rw [hl]
  by_cases he : List.filter (fun x => decide ((parseOrZero x.LastChecked).dayKey =
        (now.AddDate (-(d : Int))).toTime.dayKey))
        (List.filter (keptSince (now.AddDate (-days)).toTime) items) = []
  · simp only [he, if_true]; rfl
  · have hpos := List.length_pos.mpr he
    simp only [he, if_false, gt_iff_lt, hpos, if_true]

/-- The point of the day `d` days back carries the first status that is not
`OPERATIONAL` among the records the code finds under the key of that day -/
theorem point_status_of_keyedBucket (now : LocalTime) (items : List DynamoDBItem) (d : Nat)
    (hd : d < 90) :
    ∃ p, (generateStatusHistory now items 90)[89 - d]? = some p ∧
      p.Timestamp = (now.AddDate (-(d : Int))).toTime ∧
      p.Status = specDayStatus (keyedBucket now 90 d items) := by
  obtain ⟨h1, h2⟩ := point_timestamp now items d hd
  refine ⟨_, h1, h2, ?_⟩
  rw [historyPoint_status, worstStatus_eq]
  rfl

theorem dayKey_toTime (t : LocalTime) : t.toTime.dayKey = t.loc.dayKeyOf t.toTime := rfl

theorem keyedBucket_eq_specDayBucket (now : LocalTime) (days : Int) (d : Nat)
    (items : List DynamoDBItem)
    (hzone : ∀ r ∈ items, ∀ t, timeParse r.LastChecked = some t →
      t.offset = (now.loc.lookup (unixSeconds t.unixNano)).offset) :
    keyedBucket now days d items = specDayBucket now days d items := by
  unfold keyedBucket specDayBucket
  apply List.filter_congr
  intro r hr
  obtain ⟨hmem, hkept⟩ := List.mem_filter.mp hr
  have hloc : (now.AddDate (-(d : Int))).loc = now.loc := rfl
  have hday : (now.AddDate (-(d : Int))).toTime.dayKey =
      now.loc.dayKeyOf (now.AddDate (-(d : Int))).toTime := by
    rw [dayKey_toTime, hloc]
  rw [hday]
  cases hp : timeParse r.LastChecked with
  | none => simp [keptSince, hp] at hkept
  | some t =>
    have hoff := hzone r hmem t hp
    have hkey : (parseOrZero r.LastChecked).dayKey = now.loc.dayKeyOf (parseOrZero r.LastChecked) := by
      unfold parseOrZero Time.dayKey Location.dayKeyOf
      rw [hp]
      simp only [Option.getD_some]
      rw [hoff]
    rw [hkey]

/-- When every record is stamped in the offset that the local zone has at
its instant, the point of each day is decided by the specification's bucket
of that day -/
theorem point_status_same_zone (now : LocalTime) (items : List DynamoDBItem) (d : Nat)
    (hd : d < 90)
    (hzone : ∀ r ∈ items, ∀ t, timeParse r.LastChecked = some t →
      t.offset = (now.loc.lookup (unixSeconds t.unixNano)).offset) :
    ∃ p, (generateStatusHistory now items 90)[89 - d]? = some p ∧
      p.Timestamp = (now.AddDate (-(d : Int))).toTime ∧
      (specDayBucket now 90 d items = [] → p.Status = "OPERATIONAL") ∧
      (∀ r, (specDayBucket now 90 d items).find? (fun r => decide (r.Status ≠ "OPERATIONAL")) =
        some r → p.Status = r.Status) ∧
      ((specDayBucket now 90 d items).find? (fun r => decide (r.Status ≠ "OPERATIONAL")) = none →
        p.Status = "OPERATIONAL") := by
  obtain ⟨p, h1, h2, h3⟩ := point_status_of_keyedBucket now items d hd
  rw [keyedBucket_eq_specDayBucket now 90 d items hzone] at h3
  refine ⟨p, h1, h2, ?_, ?_, ?_⟩
  · intro he; rw [h3, he]; rfl
  · intro r hr; rw [h3]; unfold specDayStatus; rw [hr]
  · intro hn; rw [h3]; unfold specDayStatus; rw [hn]

/-! ## C5 -/

/-- C5 at a failing input: in a process whose local zone is UTC+05:30, at
2025-01-10T20:00:00Z (01:30 of 2025-01-11 local), the only record is `db`,
`DOWN`, stamped 2025-01-10T20:00:00Z.  In the local zone the record falls on
today, 2025-01-11: today's bucket holds it and its first status that is not
`OPERATIONAL` is `DOWN`, while yesterday's bucket is empty.  The code files
the record under the date of its own string, 2025-01-10: today's point is
`OPERATIONAL` and yesterday's point is `DOWN`. -/
theorem today_bucket_zone_mismatch :
    (specDayBucket ⟨evening, FixedZone 19800⟩ 90 0 [dbDownRecord]).map (fun r => r.Status) =
      ["DOWN"] ∧
    specDayStatus (specDayBucket ⟨evening, FixedZone 19800⟩ 90 0 [dbDownRecord]) = "DOWN" ∧
    ((generateStatusHistory ⟨evening, FixedZone 19800⟩ [dbDownRecord] 90)[89]?).map
      (fun p => p.Status) = some "OPERATIONAL" ∧
    (specDayBucket ⟨evening, FixedZone 19800⟩ 90 1 [dbDownRecord]).map (fun r => r.Status) = [] ∧
    ((generateStatusHistory ⟨evening, FixedZone 19800⟩ [dbDownRecord] 90)[88]?).map
      (fun p => p.Status) = some "DOWN" := by
  refine ⟨by decide, by decide, ?_, by decide, ?_⟩
  · rw [generateStatusHistory_getElem _ _ _ 89 (by decide)]
    decide
  · rw [generateStatusHistory_getElem _ _ _ 88 (by decide)]
    decide

/-! ## Lemmas on records without a parseable `lastChecked` -/

theorem decodeItem_parseable (it : Item) : (decodeItem it).parseable = it.parseable := by
  unfold DynamoDBItem.parseable Item.parseable decodeItem
  cases h : it.lastChecked with
  | none => rfl
  | some v =>
    cases v with
    | invalid => rfl
    | rfc3339 n z => rfl

theorem inWindow_parseable (now : Time) (w : Int) (r : DynamoDBItem) :
    (inWindow now w r && r.parseable) = inWindow now w r := by
  unfold inWindow DynamoDBItem.parseable
  cases timeParse r.LastChecked <;> simp

theorem keptSince_parseable (cutoff : Time) (r : DynamoDBItem) :
    (keptSince cutoff r && r.parseable) = keptSince cutoff r := by
  unfold keptSince DynamoDBItem.parseable
  cases timeParse r.LastChecked <;> simp

theorem specUptime_filter_parseable (now : Time) (w : Int) (items : List DynamoDBItem) :
    specUptime now w (items.filter DynamoDBItem.parseable) = specUptime now w items := by
  unfold specUptime
  simp only [List.filter_filter, inWindow_parseable]

theorem calculateUptime_filter_parseable (now : Time) (items : List DynamoDBItem) :
    calculateUptime now (items.filter DynamoDBItem.parseable) = calculateUptime now items := by
  unfold calculateUptime
  simp only [periodUptime_eq_spec, specUptime_filter_parseable]

theorem generateStatusHistory_filter_parseable (now : LocalTime) (items : List DynamoDBItem)
    (days : Int) :
    generateStatusHistory now (items.filter DynamoDBItem.parseable) days =
      generateStatusHistory now items days := by
  rw [generateStatusHistory_eq, generateStatusHistory_eq, foldl_historyStep, foldl_historyStep]
  simp only [List.filter_filter, keptSince_parseable]

theorem parseableRecords_eq (items : List Item) (s : String) :
    parseableRecords items s =
      ((items.map decodeItem).filter (fun d => d.ServiceName = s)).filter
        DynamoDBItem.parseable := by
  unfold parseableRecords
  induction items with
  | nil => rfl
  | cons it rest ih =>
    have hp := decodeItem_parseable it
    by_cases h1 : it.parseable = true
    · have h2 : (decodeItem it).parseable = true := by rw [hp]; exact h1
      by_cases h3 : (decodeItem it).ServiceName = s
      · simp [List.filter_cons, h1, h2, h3, ih]
      · simp [List.filter_cons, h1, h3, ih]
    · have h2 : ¬ (decodeItem it).parseable = true := by rw [hp]; exact h1
      by_cases h3 : (decodeItem it).ServiceName = s
      · simp [List.filter_cons, h1, h2, h3, ih]
      · simp [List.filter_cons, h1, h3, ih]

/-- When a service has a record whose `lastChecked` parses and is later than
the zero time, its component is taken from a parseable record, and its uptime
and timeline are those of the parseable records alone -/
theorem usable_record_wins (rt : Runtime) (hrt : rt.Faithful) (items : List Item)
    (s : String)
    (hs : ∃ it ∈ items, it.serviceName.getD "" = s ∧ it.parseable = true ∧
      Time.zero.unixNano < (wholeSecondLastChecked it).unixNano) :
    ∃ c, (GetCurrentStatus rt items).Components.filter (fun c => c.Name = s) = [c] ∧
      (∃ it ∈ items, it.serviceName.getD "" = s ∧ it.parseable = true ∧
        c.LastChecked = wholeSecondLastChecked it ∧
        c.Status = it.status.getD "" ∧
        c.InternalResponseTimeMs = it.internalResponseTimeMs.getD 0 ∧
        c.TotalResponseTimeMs = it.totalResponseTimeMs.getD 0) ∧
      ∃ l k, l.Perm (parseableRecords items s) ∧
        c.UptimePercent = (calculateUptime (rt.now k).toTime l).Last24Hours ∧
        c.StatusHistory = generateStatusHistory (rt.now (k + 1)) l 90 := by
  obtain ⟨it0, hit0, hsn0, hp0, hz0⟩ := hs
  obtain ⟨hnd, hex, hall⟩ := components_structure rt hrt items
  obtain ⟨c, hc, hname0⟩ := List.mem_map.mp (hex s ⟨it0, hit0, hsn0⟩)
  have hname : c.Name = s := hname0
  refine ⟨c, ?_, ?_, ?_⟩
  · have := filter_eq_singleton_of_nodup (fun c : ComponentStatus => c.Name) _ hnd c hc
    rw [← hname]
    exact this
  · obtain ⟨⟨latest, rest, k, hsort, hceq⟩, _⟩ := hall c hc
    rw [hname] at hsort
    obtain ⟨hin, hmax⟩ := latest_is_max rt hrt _ latest rest hsort
    have hlc : c.LastChecked = parseOrZero latest.LastChecked := by rw [hceq]
    have hge := hmax (decodeItem it0) (by
      rw [List.mem_filter]
      exact ⟨List.mem_map_of_mem _ hit0, by simpa using hsn0⟩)
    rw [decoded_lastChecked_eq] at hge
    have hlp : latest.parseable = true := by
      unfold DynamoDBItem.parseable
      cases hparse : timeParse latest.LastChecked with
      | some t => rfl
      | none =>
        exfalso
        have : parseOrZero latest.LastChecked = Time.zero := by
          unfold parseOrZero; rw [hparse]; rfl
        rw [this] at hge
        omega
    rw [List.mem_filter] at hin
    obtain ⟨it, hit, hdec⟩ := List.mem_map.mp hin.1
    refine ⟨it, hit, ?_, ?_, ?_, ?_, ?_, ?_⟩
    · have h2 : (decodeItem it).ServiceName = s := by rw [hdec]; simpa using hin.2
      exact h2
    · rw [← decodeItem_parseable, hdec]; exact hlp
    · rw [hlc, ← decoded_lastChecked_eq, hdec]
    · have h2 : c.Status = (decodeItem it).Status := by rw [hdec, hceq]
      exact h2
    · have h2 : c.InternalResponseTimeMs = (decodeItem it).InternalResponseTimeMs := by
        rw [hdec, hceq]
      exact h2
    · have h2 : c.TotalResponseTimeMs = (decodeItem it).TotalResponseTimeMs := by
        rw [hdec, hceq]
      exact h2
  · obtain ⟨⟨latest, rest, k, hsort, hceq⟩, _⟩ := hall c hc
    rw [hname] at hsort
    refine ⟨(latest :: rest).filter DynamoDBItem.parseable, k, ?_, ?_, ?_⟩
    · rw [parseableRecords_eq, ← hsort]
      exact (hrt.sort_perm _).filter _
    · rw [calculateUptime_filter_parseable, hceq]
    · rw [generateStatusHistory_filter_parseable, hceq]

/-! ## C6 -/

/-- C6 at a failing input: the only record of service `db` has status `DOWN`
and an empty `lastChecked`.  With that record removed the scan result is
empty and gives no component and `OPERATIONAL`.  With it, `GetCurrentStatus`
still emits a component for `db`, with status `DOWN`, the zero time as
`lastChecked`, every timeline point `OPERATIONAL`, and the system is
`DEGRADED`.  When `db` also has a usable record (scenario S6), that record
alone decides the component. -/
theorem malformed_only_still_reported :
    [malformedItem].filter Item.parseable = [] ∧
    (GetCurrentStatus (runtimeAt noon UTC) ([malformedItem].filter Item.parseable)).OverallStatus
      = "OPERATIONAL" ∧
    (GetCurrentStatus (runtimeAt noon UTC) ([malformedItem].filter Item.parseable)).Components
      = [] ∧
    (GetCurrentStatus (runtimeAt noon UTC) [malformedItem]).OverallStatus = "DEGRADED" ∧
    (GetCurrentStatus (runtimeAt noon UTC) [malformedItem]).Components.map
      (fun c => (c.Name, c.Status, c.LastChecked)) = [("db", "DOWN", Time.zero)] ∧
    (GetCurrentStatus (runtimeAt noon UTC) [malformedItem]).Components.map
      (fun c => c.StatusHistory.all (fun p => p.Status = "OPERATIONAL")) = [true] ∧
    (GetCurrentStatus (runtimeAt noon UTC) [malformedItem, goodItem]).OverallStatus =
      "OPERATIONAL" ∧
    (GetCurrentStatus (runtimeAt noon UTC) [malformedItem, goodItem]).Components.map
      (fun c => (c.Name, c.Status, c.LastChecked)) = [("db", "OPERATIONAL", ⟨noon, 0⟩)] := by
  refine ⟨by decide, by decide, by decide, by decide, by decide, by decide, by decide,
    by decide⟩

/-! ## C7 -/

/-- C7 at a failing input: the poll of scenario S2 is stored at
2025-01-10T20:00:00Z and read at the same instant by a process whose local zone
is UTC+05:30.  The record of `db` is bucketed under its UTC date 2025-01-10
(day 20098), the last timeline day is the local date 2025-01-11 (day 20099),
and `statusHistory[89]` of `db` is `OPERATIONAL` although the stored status is
`DOWN`.  Read in UTC, the same table gives `DOWN`. -/
theorem today_status_zone_mismatch :
    (StoreResults allPutsSucceed [] degradedPoll).2 = none ∧
    degradedTable.map (fun it => (it.serviceName, it.status, it.lastChecked)) =
      [(some "api", some "OPERATIONAL", some (TimeStr.rfc3339 evening 0)),
       (some "db", some "DOWN", some (TimeStr.rfc3339 evening 0))] ∧
    (parseOrZero (TimeStr.rfc3339 evening 0)).dayKey = 20098 ∧
    (LocalTime.AddDate ⟨evening, FixedZone 19800⟩ 0).toTime.dayKey = 20099 ∧
    (GetCurrentStatus (runtimeAt evening (FixedZone 19800)) degradedTable).Components.map
      (fun c => (c.Name, c.Status, (c.StatusHistory[89]?).map (fun p => p.Status))) =
      [("api", "OPERATIONAL", some "OPERATIONAL"), ("db", "DOWN", some "OPERATIONAL")] ∧
    (GetCurrentStatus (runtimeAt evening UTC) degradedTable).Components.map
      (fun c => (c.Name, c.Status, (c.StatusHistory[89]?).map (fun p => p.Status))) =
      [("api", "OPERATIONAL", some "OPERATIONAL"), ("db", "DOWN", some "DOWN")] := by
  refine ⟨by decide, by decide, by decide, by decide, by decide, by decide⟩

/-! ## Lemma on the totals of `calculateOverallUptime` -/

theorem foldl_totals (cs : List ComponentStatus) (t : ℚ × ℚ × ℚ) :
    cs.foldl
      (fun (t : ℚ × ℚ × ℚ) component =>
        (t.1 + component.UptimePercent, t.2.1 + component.UptimePercent,
          t.2.2 + component.UptimePercent)) t =
      (t.1 + (cs.map (fun c => c.UptimePercent)).sum,
        t.2.1 + (cs.map (fun c => c.UptimePercent)).sum,
        t.2.2 + (cs.map (fun c => c.UptimePercent)).sum) := by
  induction cs generalizing t with
  | nil => simp
  | cons c rest ih =>
    rw [List.foldl_cons, ih]
    simp only [List.map_cons, List.sum_cons]
    ext <;> simp <;> ring

/-! ## C8 -/

/-- C8: `calculateOverallUptime` returns 100, 100, 100 for the empty list, and
for every non-empty list of components an `UptimeStats` whose three fields all
equal the arithmetic mean of the components' `UptimePercent` values. -/
theorem calculateOverallUptime_mean :
    calculateOverallUptime [] = ⟨100, 100, 100⟩ ∧
    ∀ (c : ComponentStatus) (cs : List ComponentStatus),
      calculateOverallUptime (c :: cs) =
        ⟨((c :: cs).map (fun c => c.UptimePercent)).sum / ((c :: cs).length : ℚ),
         ((c :: cs).map (fun c => c.UptimePercent)).sum / ((c :: cs).length : ℚ),
         ((c :: cs).map (fun c => c.UptimePercent)).sum / ((c :: cs).length : ℚ)⟩ := by
  refine ⟨rfl, fun c cs => ?_⟩
  unfold calculateOverallUptime
  have hlen : ¬ (c :: cs).length = 0 := by simp
  simp only [hlen, if_false, foldl_totals, zero_add]

/-! ## Lemmas on `StoreResults` -/

theorem foldl_storeComponent (env : PutRuntime) (result : MonitoringResult)
    (js : List (Nat × Component)) (st : StoreState) :
    js.foldl (storeComponent env result) st =
      { puts := st.puts ++ js.map (fun j => componentItem j.2 result)
        table := st.table ++
          (js.filter (fun j => !env.putFails j.1)).map (fun j => componentItem j.2 result)
        errors := st.errors ++
          (js.filter (fun j => env.putFails j.1)).map
            (fun j => "failed to store component " ++ j.2.Name) } := by
  induction js generalizing st with
  | nil => simp
  | cons j rest ih =>
    rw [List.foldl_cons, ih]
    unfold storeComponent
    by_cases hf : env.putFails j.1 = true
    · simp [hf, List.filter_cons]
    · simp [hf, List.filter_cons]

theorem StoreResults_state (env : PutRuntime) (table : List Item) (result : MonitoringResult)
    (hn : 1 ≤ result.Components.length) :
    (StoreResults env table result).1 =
      { puts := (env.schedule result.Components.enum).map (fun j => componentItem j.2 result)
        table := table ++ ((env.schedule result.Components.enum).filter
          (fun j => !env.putFails j.1)).map (fun j => componentItem j.2 result)
        errors := ((env.schedule result.Components.enum).filter
          (fun j => env.putFails j.1)).map (fun j => "failed to store component " ++ j.2.Name) } ∧
    (StoreResults env table result).2 =
      if ((env.schedule result.Components.enum).filter (fun j => env.putFails j.1)).length > 0 then
        some (StoreError.failedToStore
          ((env.schedule result.Components.enum).filter (fun j => env.putFails j.1)).length
          (((env.schedule result.Components.enum).filter (fun j => env.putFails j.1)).map
            (fun j => "failed to store component " ++ j.2.Name)))
      else none := by
  have hlen : ¬ result.Components.length = 0 := by omega
  unfold StoreResults
  simp only [hlen, if_false, foldl_storeComponent, List.nil_append, List.length_map]
  constructor <;> split <;> rfl

theorem puts_perm (env : PutRuntime) (hsched : ∀ l, (env.schedule l).Perm l)
    (result : MonitoringResult) :
    ((env.schedule result.Components.enum).map (fun j => componentItem j.2 result)).Perm
      (result.Components.map (fun c => componentItem c result)) := by
  have h1 := (hsched result.Components.enum).map (fun j => componentItem j.2 result)
  have h2 : result.Components.enum.map (fun j => componentItem j.2 result) =
      result.Components.map (fun c => componentItem c result) := by
    conv_rhs => rw [← List.enum_map_snd result.Components]
    rw [List.map_map]
    rfl
  rw [h2] at h1
  exact h1

/-! ## C9 -/

/-- C9: for every poll result with at least one component, when every
`PutItem` succeeds `StoreResults` returns no error and issues exactly one put
per component: the puts are, up to the order in which the goroutines ran, the
items of the components, each with the component's name and status, every one
with the same `lastChecked`, the RFC3339 rendering of the poll's timestamp,
and the same `totalResponseTimeMs`, that of the poll; all of them are added
to the table. -/
theorem StoreResults_success (env : PutRuntime) (hsched : ∀ l, (env.schedule l).Perm l)
    (table : List Item) (result : MonitoringResult) (hn : 1 ≤ result.Components.length)
    (hok : ∀ i, i < result.Components.length → env.putFails i = false) :
    (StoreResults env table result).2 = none ∧
    (StoreResults env table result).1.puts.length = result.Components.length ∧
    (StoreResults env table result).1.puts.Perm
      (result.Components.map (fun c => componentItem c result)) ∧
    (∀ c, (componentItem c result).serviceName = some c.Name ∧
      (componentItem c result).status = some c.Status) ∧
    (∀ it ∈ (StoreResults env table result).1.puts,
      it.lastChecked = some result.Timestamp.Format ∧
      it.totalResponseTimeMs = some result.TotalResponseTimeMs) ∧
    (StoreResults env table result).1.table = table ++ (StoreResults env table result).1.puts := by
  obtain ⟨hst, herr⟩ := StoreResults_state env table result hn
  have hnofail : ∀ j ∈ env.schedule result.Components.enum, env.putFails j.1 = false := by
    intro j hj
    have hj2 : (j.1, j.2) ∈ result.Components.enum := (hsched _).mem_iff.mp hj
    have := List.mem_enum hj2
    exact hok j.1 this.1
  have hfil : (env.schedule result.Components.enum).filter (fun j => env.putFails j.1) = [] := by
    rw [List.filter_eq_nil_iff]
    intro j hj
    simp [hnofail j hj]
  have hfil2 : (env.schedule result.Components.enum).filter (fun j => !env.putFails j.1) =
      env.schedule result.Components.enum := by
    rw [List.filter_eq_self]
    intro j hj
    simp [hnofail j hj]
  rw [hst, herr, hfil, hfil2]
  refine ⟨rfl, ?_, puts_perm env hsched result, fun c => ⟨rfl, rfl⟩, ?_, rfl⟩
  · simp only [List.length_map]
    rw [(hsched _).length_eq, List.enum_length]
  · intro it hit
    obtain ⟨j, _, rfl⟩ := List.mem_map.mp hit
    exact ⟨rfl, rfl⟩

/-- C9 at the poll of scenario S2 -/
theorem StoreResults_success_witness :
    (∀ l, (allPutsSucceed.schedule l).Perm l) ∧
    1 ≤ degradedPoll.Components.length ∧
    (∀ i, i < degradedPoll.Components.length → allPutsSucceed.putFails i = false) ∧
    (StoreResults allPutsSucceed [] degradedPoll).2 = none ∧
    (StoreResults allPutsSucceed [] degradedPoll).1.puts.length = degradedPoll.Components.length ∧
    (StoreResults allPutsSucceed [] degradedPoll).1.puts.Perm
      (degradedPoll.Components.map (fun c => componentItem c degradedPoll)) ∧
    (∀ c, (componentItem c degradedPoll).serviceName = some c.Name ∧
      (componentItem c degradedPoll).status = some c.Status) ∧
    (∀ it ∈ (StoreResults allPutsSucceed [] degradedPoll).1.puts,
      it.lastChecked = some degradedPoll.Timestamp.Format ∧
      it.totalResponseTimeMs = some degradedPoll.TotalResponseTimeMs) ∧
    (StoreResults allPutsSucceed [] degradedPoll).1.table =
      [] ++ (StoreResults allPutsSucceed [] degradedPoll).1.puts :=
  ⟨fun l => List.Perm.refl l, by decide, fun _ _ => rfl,
    StoreResults_success allPutsSucceed (fun l => List.Perm.refl l) [] degradedPoll (by decide)
      (fun _ _ => rfl)⟩

/-! ## C10 -/

/-- C10: for every poll result with at least one component and whatever puts
fail, `StoreResults` still issues a put for every component, returns an error
if and only if some put failed, the error carries the number of failed puts
and one cause per failed put, and the table afterwards is the table before
followed by the items of the components whose put succeeded, in the order the
goroutines ran (nothing is rolled back). -/
theorem StoreResults_partial (env : PutRuntime) (hsched : ∀ l, (env.schedule l).Perm l)
    (table : List Item) (result : MonitoringResult) (hn : 1 ≤ result.Components.length) :
    (StoreResults env table result).1.puts.Perm
      (result.Components.map (fun c => componentItem c result)) ∧
    ((StoreResults env table result).2 ≠ none ↔ failedJobs env result ≠ []) ∧
    (failedJobs env result ≠ [] →
      ∃ errors, (StoreResults env table result).2 =
          some (StoreError.failedToStore (failedJobs env result).length errors) ∧
        errors.Perm ((failedJobs env result).map
          (fun j => "failed to store component " ++ j.2.Name))) ∧
    ∃ stored, (StoreResults env table result).1.table = table ++ stored ∧
      stored.Perm ((passedJobs env result).map (fun j => componentItem j.2 result)) := by
  obtain ⟨hst, herr⟩ := StoreResults_state env table result hn
  have hF : ((env.schedule result.Components.enum).filter (fun j => env.putFails j.1)).Perm
      (failedJobs env result) := (hsched _).filter _
  have hP : ((env.schedule result.Components.enum).filter (fun j => !env.putFails j.1)).Perm
      (passedJobs env result) := (hsched _).filter _
  rw [hst, herr]
  refine ⟨puts_perm env hsched result, ?_, ?_, ⟨_, rfl, hP.map _⟩⟩
  · rw [hF.length_eq]
    cases hfj : failedJobs env result with
    | nil => simp
    | cons j rest => simp
  · intro hne
    have hpos : 0 < (failedJobs env result).length := List.length_pos.mpr hne
    refine ⟨_, ?_, hF.map _⟩
    rw [hF.length_eq]
    simp only [gt_iff_lt, hpos, if_true]

/-- C10 at three components with the put of the second one failing: the error
reports one failure and the other two records are in the table -/
theorem StoreResults_partial_witness :
    ((∀ l, (secondPutFails.schedule l).Perm l) ∧ 1 ≤ threePoll.Components.length) ∧
    ((StoreResults secondPutFails [] threePoll).2 =
        some (StoreError.failedToStore 1 ["failed to store component db"]) ∧
      (StoreResults secondPutFails [] threePoll).1.table.map (fun it => it.serviceName) =
        [some "cache", some "api"]) ∧
    ((StoreResults secondPutFails [] threePoll).1.puts.Perm
      (threePoll.Components.map (fun c => componentItem c threePoll)) ∧
    ((StoreResults secondPutFails [] threePoll).2 ≠ none ↔ failedJobs secondPutFails threePoll ≠ []) ∧
    (failedJobs secondPutFails threePoll ≠ [] →
      ∃ errors, (StoreResults secondPutFails [] threePoll).2 =
          some (StoreError.failedToStore (failedJobs secondPutFails threePoll).length errors) ∧
        errors.Perm ((failedJobs secondPutFails threePoll).map
          (fun j => "failed to store component " ++ j.2.Name))) ∧
    ∃ stored, (StoreResults secondPutFails [] threePoll).1.table = [] ++ stored ∧
      stored.Perm ((passedJobs secondPutFails threePoll).map
        (fun j => componentItem j.2 threePoll))) :=
  ⟨⟨fun l => List.reverse_perm l, by decide⟩, ⟨by decide, by decide⟩,
    StoreResults_partial secondPutFails (fun l => List.reverse_perm l) [] threePoll (by decide)⟩

/-! ## Lemma on the ingest cycle when the probe succeeds -/

theorem Handle_stores_on_success :
    (Handle ⟨ProbeOutcome.response 200 (some ⟨"", "DEGRADED", degradedPoll.Components⟩),
        120, evening⟩ allPutsSucceed []).2 = none ∧
    (Handle ⟨ProbeOutcome.response 200 (some ⟨"", "DEGRADED", degradedPoll.Components⟩),
        120, evening⟩ allPutsSucceed []).1.table.map
      (fun it => (it.serviceName, it.status, it.lastChecked)) =
      [(some "api", some "OPERATIONAL", some (TimeStr.rfc3339 evening 0)),
       (some "db", some "DOWN", some (TimeStr.rfc3339 evening 0))] := by
  refine ⟨by decide, by decide⟩

/-! ## C11 -/

/-- C11: an ingest cycle returns an error and issues no `PutItem` at all
whenever the probe fails (the request cannot be built or sent, the HTTP status
is not 200, or the body cannot be decoded) or the probe succeeds with an empty
component list; in all these cases the table is left as it was.  A probe
failure is reported as a failed health check, an empty list as the store's
refusal of an empty result. -/
theorem Handle_writes_nothing (probe : ProbeRuntime) (env : PutRuntime) (table : List Item)
    (h : NothingToWrite probe.outcome) :
    (Handle probe env table).2 ≠ none ∧
    (Handle probe env table).1.puts = [] ∧
    (Handle probe env table).1.table = table ∧
    ((∃ cause, (Handle probe env table).2 = some (HandleError.healthCheckFailed cause)) ∨
      (Handle probe env table).2 = some (HandleError.storeFailed StoreError.noComponents)) := by
  rcases h with h | h | ⟨statusCode, body, h, hne⟩ | h | ⟨healthResp, h, hempty⟩
  · simp [Handle, CheckHealth, h]
  · simp [Handle, CheckHealth, h]
  · simp [Handle, CheckHealth, h, hne]
  · simp [Handle, CheckHealth, h]
  · simp [Handle, CheckHealth, h, hempty, StoreResults]

/-- C11 at scenario S5, the probe that returns no component, with a write path
on which every put would succeed and a table that already holds the records
of scenario S2 -/
theorem Handle_writes_nothing_witness :
    NothingToWrite emptyProbe.outcome ∧
    (Handle emptyProbe allPutsSucceed degradedTable).2 ≠ none ∧
    (Handle emptyProbe allPutsSucceed degradedTable).1.puts = [] ∧
    (Handle emptyProbe allPutsSucceed degradedTable).1.table = degradedTable ∧
    ((∃ cause, (Handle emptyProbe allPutsSucceed degradedTable).2 =
        some (HandleError.healthCheckFailed cause)) ∨
      (Handle emptyProbe allPutsSucceed degradedTable).2 =
        some (HandleError.storeFailed StoreError.noComponents)) :=
  ⟨Or.inr (Or.inr (Or.inr (Or.inr ⟨_, rfl, rfl⟩))),
    Handle_writes_nothing emptyProbe allPutsSucceed degradedTable
      (Or.inr (Or.inr (Or.inr (Or.inr ⟨_, rfl, rfl⟩))))⟩

/-! ## Lemmas on the range of the uptime percentages -/

theorem specUptime_range (now : Time) (w : Int) (items : List DynamoDBItem) :
    InPercentRange (specUptime now w items) := by
  unfold specUptime InPercentRange
  by_cases h : (items.filter (inWindow now w)).length = 0
  · simp only [h, if_true]
    constructor <;> norm_num
  · simp only [h, if_false]
    have hpos : (0 : ℚ) < ((items.filter (inWindow now w)).length : ℚ) := by
      exact_mod_cast Nat.pos_of_ne_zero h
    have hle : (((items.filter (inWindow now w)).filter
        (fun r => r.Status = "OPERATIONAL")).length : ℚ) ≤
        ((items.filter (inWindow now w)).length : ℚ) := by
      exact_mod_cast List.length_filter_le _ _
    have hnn : (0 : ℚ) ≤ (((items.filter (inWindow now w)).filter
        (fun r => r.Status = "OPERATIONAL")).length : ℚ) := by
      exact_mod_cast Nat.zero_le _
    constructor
    · apply div_nonneg _ hpos.le
      linarith
    · rw [div_le_iff₀ hpos]
      linarith

theorem calculateUptime_range (now : Time) (items : List DynamoDBItem) :
    InPercentRange (calculateUptime now items).Last24Hours ∧
    InPercentRange (calculateUptime now items).Last7Days ∧
    InPercentRange (calculateUptime now items).Last30Days := by
  unfold calculateUptime
  simp only [periodUptime_eq_spec]
  exact ⟨specUptime_range _ _ _, specUptime_range _ _ _, specUptime_range _ _ _⟩

theorem sum_uptime_range (cs : List ComponentStatus)
    (h : ∀ c ∈ cs, InPercentRange c.UptimePercent) :
    0 ≤ (cs.map (fun c => c.UptimePercent)).sum ∧
    (cs.map (fun c => c.UptimePercent)).sum ≤ 100 * (cs.length : ℚ) := by
  induction cs with
  | nil => simp
  | cons c rest ih =>
    have hc := h c (List.mem_cons_self _ _)
    have hrest := ih (fun c1 hc1 => h c1 (List.mem_cons_of_mem _ hc1))
    unfold InPercentRange at hc
    simp only [List.map_cons, List.sum_cons, List.length_cons, Nat.cast_add, Nat.cast_one]
    constructor
    · linarith [hc.1, hrest.1]
    · linarith [hc.2, hrest.2]

theorem calculateOverallUptime_range (cs : List ComponentStatus)
    (h : ∀ c ∈ cs, InPercentRange c.UptimePercent) :
    InPercentRange (calculateOverallUptime cs).Last24Hours ∧
    InPercentRange (calculateOverallUptime cs).Last7Days ∧
    InPercentRange (calculateOverallUptime cs).Last30Days := by
  unfold calculateOverallUptime
  by_cases hlen : cs.length = 0
  · simp only [hlen, if_true]
    unfold InPercentRange
    norm_num
  · simp only [hlen, if_false, foldl_totals, zero_add]
    have hpos : (0 : ℚ) < (cs.length : ℚ) := by exact_mod_cast Nat.pos_of_ne_zero hlen
    obtain ⟨h0, h100⟩ := sum_uptime_range cs h
    have hmean : InPercentRange ((cs.map (fun c => c.UptimePercent)).sum / (cs.length : ℚ)) := by
      unfold InPercentRange
      constructor
      · exact div_nonneg h0 hpos.le
      · rw [div_le_iff₀ hpos]
        exact h100
    exact ⟨hmean, hmean, hmean⟩

theorem components_uptime_range (rt : Runtime) (items : List Item) :
    ∀ c ∈ (GetCurrentStatus rt items).Components, InPercentRange c.UptimePercent := by
  intro c hc
  have hc2 : c ∈ ((rt.mapRange (buildComponentMap items)).foldl (processGroup rt)
      ⟨[], true, Time.zero, 0⟩).components := hc
  rcases mem_foldl_processGroup rt _ _ c hc2 with h | ⟨g, _, latest, rest, k, _, hceq⟩
  · cases h
  · rw [hceq]
    exact (calculateUptime_range _ _).1

/-! ## C12 -/

/-- C12: for every scan result and every evaluation instant, every uptime
percentage lies in the closed interval from 0 to 100: each of the three window
values that `calculateUptime` produces for any list of records, the
`uptimePercent` of every component of the `SystemStatus` returned by
`GetCurrentStatus`, and each of `last24Hours`, `last7Days` and `last30Days` of
its `uptimeStats`, which `calculateOverallUptime` produces. -/
theorem uptime_in_range (rt : Runtime) (items : List Item) (now : Time)
    (records : List DynamoDBItem) :
    (InPercentRange (calculateUptime now records).Last24Hours ∧
      InPercentRange (calculateUptime now records).Last7Days ∧
      InPercentRange (calculateUptime now records).Last30Days) ∧
    (∀ c ∈ (GetCurrentStatus rt items).Components, InPercentRange c.UptimePercent) ∧
    (GetCurrentStatus rt items).UptimeStats =
      calculateOverallUptime (GetCurrentStatus rt items).Components ∧
    InPercentRange (GetCurrentStatus rt items).UptimeStats.Last24Hours ∧
    InPercentRange (GetCurrentStatus rt items).UptimeStats.Last7Days ∧
    InPercentRange (GetCurrentStatus rt items).UptimeStats.Last30Days := by
  have hcomp := components_uptime_range rt items
  have hstats : (GetCurrentStatus rt items).UptimeStats =
      calculateOverallUptime (GetCurrentStatus rt items).Components := rfl
  refine ⟨calculateUptime_range now records, hcomp, hstats, ?_⟩
  rw [hstats]
  exact calculateOverallUptime_range _ hcomp

end OpenLearn
